import Mathlib

/-!
# kdb-cpp: Connector and Result

A shallow embedding of `src/kdb_cpp.cpp`.

* Every call into the kdb+ C library (`khpun`, `khpu`, `kclose`, `k`, `r0`, `r1`),
  every `select`, and every `fprintf` is recorded as one `Event`, in program order.
* What the library hands back (the handle of `khpun`/`khpu`, the reply of `k`, the
  return value and descriptor set of `select`) is an argument of the embedded method.
* `int` fields are `Int`; the one addition and the one negation on a handle are wrapped
  to 32 bits.
-/

namespace kdb

/-! ## Payloads (`K`) -/

/-- Modelled from the spec: the object behind a `K` pointer, declared in `k.h` (not part of
the sources). `addr` is the identity of the allocation, `t` the type tag (`res->t`) and `s`
the text field (`res->s`). The reference count is kept apart, in `Heap.rc`.

The other fields are the members the printer reads, each kept on its own, so that a
payload can carry any tag with any content:
* `g` (a `G`, one byte), `h` (a `short`), `i` (an `int`), `j` (a `long long`): the scalars;
* `e` (a `float`) and `f` (a `double`), kept as their bit patterns;
* `kG`, `kH`, `kI`, `kJ`, `kE`, `kF`, `kC`, `kS`: the elements `kG(x)[0..n-1]`, ... of a
  vector, by element type; `res->n` is the length of the list;
* `kK`: the child payloads `kK(x)[0..n-1]` of a list or dictionary;
* `k`: the payload `res->k` a table points to (`none` is `nullptr`). -/
structure K0 where
  addr : Nat
  t : Int
  s : String
  g : Nat := 0
  h : Int := 0
  i : Int := 0
  j : Int := 0
  e : Nat := 0
  f : Nat := 0
  kG : List Nat := []
  kH : List Int := []
  kI : List Int := []
  kJ : List Int := []
  kE : List Nat := []
  kF : List Nat := []
  kC : List Char := []
  kS : List String := []
  kK : List K0
  k : Option K0
  deriving Repr

mutual
/-- Equality of payloads is decidable. -/
def K0.decEq : (a b : K0) → Decidable (a = b)
  | ⟨a1, a2, a3, a4, a5, a6, a7, a8, a9, a10, a11, a12, a13, a14, a15, a16, a17, ak, ao⟩,
    ⟨b1, b2, b3, b4, b5, b6, b7, b8, b9, b10, b11, b12, b13, b14, b15, b16, b17, bk, bo⟩ =>
    if h : (a1 = b1 ∧ a2 = b2 ∧ a3 = b3 ∧ a4 = b4 ∧ a5 = b5 ∧ a6 = b6 ∧ a7 = b7 ∧ a8 = b8 ∧
        a9 = b9) ∧ (a10 = b10 ∧ a11 = b11 ∧ a12 = b12 ∧ a13 = b13 ∧ a14 = b14 ∧ a15 = b15 ∧
        a16 = b16 ∧ a17 = b17) then
      match K0.decEqList ak bk, K0.decEqOption ao bo with
      | isTrue hk, isTrue ho =>
        isTrue (by
          obtain ⟨⟨h1, h2, h3, h4, h5, h6, h7, h8, h9⟩,
            h10, h11, h12, h13, h14, h15, h16, h17⟩ := h
          subst h1 h2 h3 h4 h5 h6 h7 h8 h9 h10 h11 h12 h13 h14 h15 h16 h17 hk ho
          rfl)
      | isFalse hk, _ => isFalse (fun hab => hk (by cases hab; rfl))
      | _, isFalse ho => isFalse (fun hab => ho (by cases hab; rfl))
    else
      isFalse (fun hab => h (by
        cases hab
        exact ⟨⟨rfl, rfl, rfl, rfl, rfl, rfl, rfl, rfl, rfl⟩,
          rfl, rfl, rfl, rfl, rfl, rfl, rfl, rfl⟩))
/-- Equality of lists of payloads is decidable. -/
def K0.decEqList : (a b : List K0) → Decidable (a = b)
  | [], [] => isTrue rfl
  | [], _ :: _ => isFalse (fun hab => by cases hab)
  | _ :: _, [] => isFalse (fun hab => by cases hab)
  | x :: xs, y :: ys =>
    match K0.decEq x y, K0.decEqList xs ys with
    | isTrue hx, isTrue hxs => isTrue (by subst hx hxs; rfl)
    | isFalse hx, _ => isFalse (fun hab => hx (by cases hab; rfl))
    | _, isFalse hxs => isFalse (fun hab => hxs (by cases hab; rfl))
/-- Equality of nullable payloads is decidable. -/
def K0.decEqOption : (a b : Option K0) → Decidable (a = b)
  | none, none => isTrue rfl
  | none, some _ => isFalse (fun hab => by cases hab)
  | some _, none => isFalse (fun hab => by cases hab)
  | some x, some y =>
    match K0.decEq x y with
    | isTrue hx => isTrue (by subst hx; rfl)
    | isFalse hx => isFalse (fun hab => hx (by cases hab; rfl))
end

instance : DecidableEq K0 := K0.decEq

/-- The pointer type `K`; `none` is `nullptr`. -/
abbrev K := Option K0

/-- The value `kdb::Type::Error = -128` of the `enum class Type` (lines 11-34). A `Type` is
kept as its underlying integer, since `type()` casts any tag to it. -/
def Ty.Error : Int := -128

/-! ## Events -/

/-- The text of each `fprintf` of the source, one constructor per call site. -/
inductive Log where
  /-- line 93 -/
  | connectInfo (host : String) (port : Int) (usr_pwd : String) (timeout : Int)
  /-- line 95 -/
  | failedToConnect
  /-- line 98 -/
  | wrongCredential
  /-- line 101 -/
  | connected (host : String)
  /-- line 109 -/
  | closed (host : String)
  /-- line 111 -/
  | alreadyClosed
  /-- lines 117, 135, 150 -/
  | notEstablished
  /-- line 120 -/
  | syncMsg (msg : String)
  /-- line 138 -/
  | asyncMsg (msg : String)
  /-- lines 123, 141 -/
  | networkError
  /-- line 125 -/
  | commandError (s : String)
  /-- line 164 -/
  | connectionError
  /-- line 174 -/
  | noData (timeout : Int)
  deriving DecidableEq, Repr

/-- One observable action of the program: a call into the kdb+ C library, a `select`, or a
line written to `stdout` / `stderr`. -/
inductive Event where
  /-- The call `khpun(host, port, usr_pwd, timeout)`, handing back `ret` -/
  | khpun (host : String) (port : Int) (usr_pwd : String) (timeout : Int) (ret : Int)
  /-- The call `khpu(host, port, usr_pwd)`, handing back `ret` -/
  | khpu (host : String) (port : Int) (usr_pwd : String) (ret : Int)
  /-- The call `kclose(h)` -/
  | kclose (h : Int)
  /-- The call `k(h, msg, (K)0)`: a request on `h`; a reply is expected when `h > 0`, none
  when `h < 0` -/
  | k (h : Int) (msg : String)
  /-- The call `k(h, (S)0)`: read one pending message from `h` -/
  | kRecv (h : Int)
  /-- The call `select(nfds, &fds, NULL, NULL, &tv)` -/
  | select (nfds : Int) (fds : List Int) (tv_sec tv_usec : Int)
  /-- The call `r0(x)`: drop one reference -/
  | r0 (x : K0)
  /-- The call `r1(x)`: add one reference -/
  | r1 (x : K0)
  /-- A line written by `fprintf(stdout, ...)` -/
  | out (l : Log)
  /-- A line written by `fprintf(stderr, ...)` -/
  | err (l : Log)
  deriving DecidableEq, Repr

/-- The events that act on the transport: open, close, call/send, receive-once and the
readiness wait. -/
def Event.isTransport : Event → Bool
  | .khpun .. => true
  | .khpu .. => true
  | .kclose _ => true
  | .k .. => true
  | .kRecv _ => true
  | .select .. => true
  | _ => false

/-- The events that close a handle. -/
def Event.isClose : Event → Bool
  | .kclose _ => true
  | _ => false

/-- The events that read one pending message (`k(h, (S)0)`). -/
def Event.isRecv : Event → Bool
  | .kRecv _ => true
  | _ => false

/-- The events that drop a payload reference. -/
def Event.isR0 : Event → Bool
  | .r0 _ => true
  | _ => false

/-- The events that add a payload reference. -/
def Event.isR1 : Event → Bool
  | .r1 _ => true
  | _ => false

/-- An `open` that handed back a live handle (`ret > 0`). -/
def Event.isOpenOk : Event → Bool
  | .khpun _ _ _ _ ret => decide (0 < ret)
  | .khpu _ _ _ ret => decide (0 < ret)
  | _ => false

/-! ## Machine integers -/

/-- A value reduced to the range of a 32-bit `int`. -/
def wrapInt32 (x : Int) : Int := (x + 2147483648) % 4294967296 - 2147483648

/-! ## `kdb::Result` (lines 56-68, 184-223) -/

/-- The class `kdb::Result`: one private field `K res_`. -/
structure Result where
  res_ : K
  deriving DecidableEq, Repr

/-- Method `Result::Result(K res)` (lines 184-186): stores the pointer, no `r1`. -/
def Result.ofK (res : K) : Result := { res_ := res }

/-- Method `Result::~Result()` (lines 188-193): the object after the body, and the events. -/
def Result.destroy (self : Result) : Result × List Event :=
  match self.res_ with
  | some x => ({ res_ := none }, [Event.r0 x])
  | none => (self, [])

/-- Method `Result::Result(const Result &r)` (lines 196-201): the new object, and the events. -/
def Result.copy (r : Result) : Result × List Event :=
  match r.res_ with
  | some x => ({ res_ := some x }, [Event.r1 x])
  | none => ({ res_ := none }, [])

/-- Method `Result::operator=` (lines 204-215). `sameObject` is the outcome of `this == &r`, the
comparison of the two objects' identities. Gives `*this` after the call, and the events. -/
def Result.assign (sameObject : Bool) (self r : Result) : Result × List Event :=
  if sameObject then (self, [])
  else
    let ev0 : List Event := match self.res_ with
      | some x => [Event.r0 x]
      | none => []
    let ev1 : List Event := match r.res_ with
      | some y => [Event.r1 y]
      | none => []
    ({ res_ := r.res_ }, ev0 ++ ev1)

/-- Method `Result::type()` (lines 217-223). -/
def Result.type (self : Result) : Int :=
  match self.res_ with
  | some x => x.t
  | none => Ty.Error

/-! ## The printer (lines 225-334) -/

/-- Modelled from the spec: what the printer takes from outside the sources. `fmtE` and
`fmtF` are the text the stream writes for a `float` and for a `double` (given by bit
pattern); `dj` is the date-decoding rule of the kdb+ C library, from a day offset to a
calendar number. -/
structure Lib where
  fmtE : Nat → String
  fmtF : Nat → String
  dj : Int → Int

/-- Modelled from the spec: the text `os << x` writes for a `G`. The header `k.h` declares
`G` as `unsigned char`, which a stream writes as the one character with that code; the
source prints the char atom (case -10), which the spec renders literally, through the same
expression `os << res->g` as the byte atom (case -4). -/
def showG (g : Nat) : String := String.singleton (Char.ofNat g)

/-- The text of a boolean: lines 230-234 and 263-267. -/
def showBool (g : Nat) : String := if g ≠ 0 then "true" else "false"

/-- The loop `for (idx = 0; idx < res->n; idx++) os << elem(idx) << ' '` of lines 257-319:
the text of each element followed by one space, in order. -/
def eachSp {α : Type} (elem : α → String) : List α → String
  | [] => ""
  | x :: xs => elem x ++ " " ++ eachSp elem xs

/-- The text of `os << a << b`, two outputs one after the other; it is defined when both
are. -/
def andThen (x y : Option String) : Option String :=
  match x, y with
  | some a, some b => some (a ++ b)
  | _, _ => none

mutual
/-- The `switch (res->t)` of `operator<<(std::ostream&, K const&)` (lines 228-327), for a
payload that is not `nullptr`: the text appended to the stream. It is `none` when the
payload is read where it has nothing: a dictionary (tag 99) with fewer than two children,
a table (tag 98) whose `k` is `nullptr` or has fewer than two children. -/
def render (lib : Lib) : K0 → Option String
  | ⟨_, t, s, g, h, i, j, e, f, kG, kH, kI, kJ, kE, kF, kC, kS, kK, k⟩ =>
    if t = -1 then some (showBool g)
    else if t = -4 then some (showG g)
    else if t = -5 then some (toString h)
    else if t = -6 ∨ t = -13 ∨ t = -17 ∨ t = -18 then some (toString i)
    else if t = -7 ∨ t = -12 ∨ t = -16 then some (toString j)
    else if t = -8 then some (lib.fmtE e)
    else if t = -9 ∨ t = -15 then some (lib.fmtF f)
    else if t = -10 then some (showG g)
    else if t = -11 then some s
    else if t = -19 then some (toString i)
    else if t = -14 then some (toString (lib.dj i))
    else if t = 0 then renderEach lib kK
    else if t = 1 then some (eachSp showBool kG)
    else if t = 4 then some (eachSp showG kG)
    else if t = 5 then some (eachSp toString kH)
    else if t = 6 ∨ t = 13 ∨ t = 17 ∨ t = 18 then some (eachSp toString kI)
    else if t = 7 ∨ t = 12 ∨ t = 16 then some (eachSp toString kJ)
    else if t = 8 then some (eachSp lib.fmtE kE)
    else if t = 9 ∨ t = 15 then some (eachSp lib.fmtF kF)
    else if t = 10 then some (eachSp String.singleton kC)
    else if t = 11 then some (eachSp id kS)
    else if t = 19 then some (eachSp toString kI)
    else if t = 14 then some (eachSp (fun d => toString (lib.dj d)) kI)
    else if t = 98 then renderTable lib k
    else if t = 99 then renderPair lib kK
    else some ""
/-- The loop of the mixed list (lines 257-259), `os << kK(res)[idx] << ' '` for each child
in order: the child's text, then one space. -/
def renderEach (lib : Lib) : List K0 → Option String
  | [] => some ""
  | x :: xs => andThen (andThen (render lib x) (some " ")) (renderEach lib xs)
/-- The output `os << kK(x)[0] << kK(x)[1]` of lines 322 and 325, from the children of
`x`: the first child's text, then the second child's. -/
def renderPair (lib : Lib) : List K0 → Option String
  | a :: b :: _ => andThen (render lib a) (render lib b)
  | _ => none
/-- The output `os << kK(res->k)[0] << kK(res->k)[1]` of line 322, from `res->k`. -/
def renderTable (lib : Lib) : Option K0 → Option String
  | some ⟨_, _, _, _, _, _, _, _, _, _, _, _, _, _, _, _, _, dK, _⟩ => renderPair lib dK
  | none => none
end

/-- The function `operator<<(std::ostream&, K const&)` (lines 225-330): nothing is appended
for `nullptr`. -/
def renderK (lib : Lib) : K → Option String
  | some x => render lib x
  | none => some ""

/-- The function `kdb::operator<<(std::ostream&, Result const&)` (lines 332-334). -/
def Result.render (lib : Lib) (result : Result) : Option String := renderK lib result.res_

/-- The tags that have a `case` in the `switch` of the printer. -/
def handledTags : List Int :=
  [-1, -4, -5, -6, -13, -17, -18, -7, -12, -16, -8, -9, -15, -10, -11, -19, -14,
    0, 1, 4, 5, 6, 13, 17, 18, 7, 12, 16, 8, 9, 15, 10, 11, 19, 14, 98, 99]

/-! ## `kdb::Connector` (lines 39-54, 74-179) -/

/-- The class `kdb::Connector` with its four private fields and their initial values. -/
structure Connector where
  host_ : String := ""
  usr_pwd_ : String := ""
  port_ : Int := 0
  hdl_ : Int := 0
  deriving DecidableEq, Repr

/-- A freshly constructed Connector. -/
def Connector.fresh : Connector := {}

/-- The state the spec calls `Connected`: a live handle. -/
def Connector.Connected (c : Connector) : Prop := 0 < c.hdl_

/-- The state the spec calls `Disconnected`: no live handle. -/
def Connector.Disconnected (c : Connector) : Prop := c.hdl_ ≤ 0

instance (c : Connector) : Decidable c.Connected := by unfold Connector.Connected; infer_instance

instance (c : Connector) : Decidable c.Disconnected := by
  unfold Connector.Disconnected; infer_instance

/-- Method `Connector::disconnect()` (lines 105-113). -/
def Connector.disconnect (c : Connector) : Connector × List Event :=
  if 0 < c.hdl_ then
    ({ c with hdl_ := 0 }, [Event.kclose c.hdl_, Event.out (Log.closed c.host_)])
  else
    (c, [Event.out Log.alreadyClosed])

/-- Method `Connector::~Connector()` (lines 74-76). -/
def Connector.destroy (c : Connector) : Connector × List Event := c.disconnect

/-- Method `Connector::connect` (lines 78-103). `host` and `usr_pwd` are `none` for `nullptr`;
`h` is the handle that `khpun` / `khpu` hands back. -/
def Connector.connect (c : Connector) (host : Option String) (port : Int)
    (usr_pwd : Option String) (timeout : Int) (h : Int) : Bool × Connector × List Event :=
  let c1 : Connector :=
    { c with host_ := host.getD "", usr_pwd_ := usr_pwd.getD "", port_ := port }
  let (c2, ev2) := if 0 < c1.hdl_ then c1.disconnect else (c1, [])
  let evOpen : Event :=
    if 0 < timeout then Event.khpun c2.host_ c2.port_ c2.usr_pwd_ timeout h
    else Event.khpu c2.host_ c2.port_ c2.usr_pwd_ h
  let c3 : Connector := { c2 with hdl_ := h }
  let ev3 := ev2 ++ [evOpen, Event.out (Log.connectInfo c3.host_ c3.port_ c3.usr_pwd_ timeout)]
  if c3.hdl_ < 0 then
    (false, c3, ev3 ++ [Event.err Log.failedToConnect])
  else if 0 = c3.hdl_ then
    (false, c3, ev3 ++ [Event.err Log.wrongCredential])
  else
    (true, c3, ev3 ++ [Event.out (Log.connected c3.host_)])

/-- Method `Connector::sync` (lines 115-131). `reply` is what `k(hdl_, msg, (K)0)` hands back.
The first component is the returned `Result`; it is `none` on the path that reaches the
closing brace of the function without a `return` statement (lines 116-118, 131). -/
def Connector.sync (c : Connector) (msg : String) (reply : K) :
    Option Result × Connector × List Event :=
  if c.hdl_ ≤ 0 then
    (none, c, [Event.err Log.notEstablished])
  else
    let ev := [Event.out (Log.syncMsg msg), Event.k c.hdl_ msg]
    match reply with
    | none => (some (Result.ofK none), c, ev ++ [Event.err Log.networkError])
    | some res =>
      if -128 = res.t then
        (some (Result.ofK none), c, ev ++ [Event.err (Log.commandError res.s), Event.r0 res])
      else
        (some (Result.ofK (some res)), c, ev)

/-- Method `Connector::async` (lines 133-144). `reply` is what `k(-hdl_, msg, (K)0)` hands back. -/
def Connector.async (c : Connector) (msg : String) (reply : K) : Connector × List Event :=
  if c.hdl_ ≤ 0 then
    (c, [Event.err Log.notEstablished])
  else
    let ev := [Event.out (Log.asyncMsg msg), Event.k (wrapInt32 (-c.hdl_)) msg]
    match reply with
    | none => (c, ev ++ [Event.err Log.networkError])
    | some _ => (c, ev)

/-- Modelled from the spec: the descriptor set behind the readiness check (`poll` of the
spec's external interfaces); the macros of `<sys/select.h>` are not part of the sources. An
`fd_set` is the list of descriptors it holds, and `FD_ZERO` empties it. -/
def FD_ZERO : List Int := []

/-- Modelled from the spec: `FD_SET(fd, &fds)` puts `fd` into the set. -/
def FD_SET (fd : Int) (fds : List Int) : List Int := fd :: fds

/-- Modelled from the spec: `FD_ISSET(fd, &fds)` tells whether `fd` is in the set. -/
def FD_ISSET (fd : Int) (fds : List Int) : Bool := decide (fd ∈ fds)

/-- Method `Connector::receive` (lines 147-179). `retval` is what `select` returns; `ready` tells
which descriptors `select` leaves in the set it was given (it only ever removes
descriptors); `pushed` is what `k(hdl_, (S)0)` hands back. -/
def Connector.receive (c : Connector) (timeout : Int) (retval : Int) (ready : Int → Bool)
    (pushed : K) : Result × Connector × List Event :=
  if c.hdl_ ≤ 0 then
    (Result.ofK none, c, [Event.err Log.notEstablished])
  else
    let tv_sec : Int := Int.tdiv timeout 1000
    let tv_usec : Int := Int.tmod timeout 1000 * 1000
    let fds0 := FD_SET c.hdl_ FD_ZERO
    let evSel := Event.select (wrapInt32 (c.hdl_ + 1)) fds0 tv_sec tv_usec
    let fds := fds0.filter ready
    let (c1, ev1) :=
      if retval = -1 then
        let (cd, evd) := c.disconnect
        (cd, [Event.err Log.connectionError] ++ evd)
      else (c, [])
    if retval ≠ 0 then
      if FD_ISSET c1.hdl_ fds then
        (Result.ofK pushed, c1, [evSel] ++ ev1 ++ [Event.kRecv c1.hdl_])
      else
        (Result.ofK none, c1, [evSel] ++ ev1)
    else
      (Result.ofK none, c1, [evSel] ++ ev1 ++ [Event.err (Log.noData timeout)])

/-! ## Sequences of Connector operations, and the transport as a set of open handles -/

/-- One operation on a Connector, together with what the library hands back during it. -/
inductive COp where
  | connect (host : Option String) (port : Int) (usr_pwd : Option String) (timeout : Int)
      (h : Int)
  | disconnect
  | sync (msg : String) (reply : K)
  | async (msg : String) (reply : K)
  | receive (timeout : Int) (retval : Int) (ready : Int → Bool) (pushed : K)
  | destroy

/-- The Connector and the events of one operation. -/
def Connector.step (c : Connector) : COp → Connector × List Event
  | .connect host port usr_pwd timeout h => (c.connect host port usr_pwd timeout h).2
  | .disconnect => c.disconnect
  | .sync msg reply => (c.sync msg reply).2
  | .async msg reply => c.async msg reply
  | .receive timeout retval ready pushed => (c.receive timeout retval ready pushed).2
  | .destroy => c.destroy

/-- The Connector and the events, in order, of a sequence of operations. -/
def Connector.run (c : Connector) : List COp → Connector × List Event
  | [] => (c, [])
  | op :: ops =>
    let r1 := c.step op
    let r2 := r1.1.run ops
    (r2.1, r1.2 ++ r2.2)

/-- Modelled from the spec: the transport as the set of handles that are open. An `open`
that hands back `ret > 0` adds `ret`, `kclose(h)` removes `h`, nothing else changes it. -/
def Transport.apply (live : List Int) : Event → List Int
  | .khpun _ _ _ _ ret => if 0 < ret then ret :: live else live
  | .khpu _ _ _ ret => if 0 < ret then ret :: live else live
  | .kclose h => live.erase h
  | _ => live

/-- The open handles after a list of events. -/
def Transport.after (live : List Int) (evs : List Event) : List Int :=
  evs.foldl Transport.apply live

/-- Whether the event is allowed when the handles `live` are open: a `kclose(h)` needs `h`
to be open and positive, every other event is allowed. -/
def Transport.allows (live : List Int) : Event → Bool
  | .kclose h => decide (h ∈ live) && decide (0 < h)
  | _ => true

/-- The discipline on the transport, checked event by event: at most one handle is open
at any time (before the first event and after each one), and `kclose` is only issued on a
handle that is open. -/
def Transport.ok : List Int → List Event → Bool
  | live, [] => decide (live.length ≤ 1)
  | live, e :: evs =>
    decide (live.length ≤ 1) && Transport.allows live e &&
      Transport.ok (Transport.apply live e) evs

/-- The handles a Connector holds open: its `hdl_` when that is a live handle. -/
def Connector.openHandles (c : Connector) : List Int :=
  if 0 < c.hdl_ then [c.hdl_] else []

/-! ## Payload reference counts as an explicit map -/

/-- Modelled from the spec: the payload memory that `r0` / `r1` of the kdb+ C library act on
(not part of the sources). `rc a` is the reference count of the payload at address `a`
(`0`: not allocated); `freed` lists the payloads freed so far, latest first. -/
structure Heap where
  rc : Nat → Nat
  freed : List Nat

/-- The heap with no payload. -/
def Heap.empty : Heap := { rc := fun _ => 0, freed := [] }

/-- Modelled from the spec: the effect of one event on the payload memory. `r1` increments
the count; `r0` decrements it and frees the payload when the count reaches zero. -/
def Heap.apply (hp : Heap) : Event → Heap
  | .r0 x =>
    { rc := Function.update hp.rc x.addr (hp.rc x.addr - 1)
      freed := if hp.rc x.addr ≤ 1 then x.addr :: hp.freed else hp.freed }
  | .r1 x => { hp with rc := Function.update hp.rc x.addr (hp.rc x.addr + 1) }
  | _ => hp

/-- The payload memory after a list of events. -/
def Heap.run (hp : Heap) (evs : List Event) : Heap := evs.foldl Heap.apply hp

/-- Modelled from the spec: the producer hands over the payload `x` with one reference. -/
def Heap.produce (hp : Heap) (x : K0) : Heap :=
  { hp with rc := Function.update hp.rc x.addr 1 }

/-- Whether the Value holds the payload at address `a`. -/
def Result.holds (a : Nat) (r : Result) : Bool :=
  match r.res_ with
  | some x => decide (x.addr = a)
  | none => false

/-- The number of Values in `vals` that hold the payload at address `a`. -/
def holders (a : Nat) (vals : List Result) : Nat := vals.countP (Result.holds a)

/-- The live Values of a program, by position, and the payload memory. -/
structure Store where
  vals : List Result
  heap : Heap

/-- The store with no Value and no payload. -/
def Store.empty : Store := { vals := [], heap := Heap.empty }

/-- One operation on Values. -/
inductive VOp where
  /-- The construction `Result(res)` from a raw payload the producer just handed over -/
  | construct (res : K)
  /-- The copy construction `Result(vals[i])` -/
  | copy (i : Nat)
  /-- The assignment `vals[i] = vals[j]` -/
  | assign (i j : Nat)
  /-- The destruction of `vals[i]` -/
  | destroy (i : Nat)
  deriving DecidableEq, Repr

/-- The store after one operation. It is `none` when the operation is not one a program can
perform: it names a Value that is not live, or the producer hands over a payload that is
still allocated. A constructed or copied Value is added at the end of `vals`; a destroyed
one is removed. -/
def Store.step (st : Store) : VOp → Option Store
  | .construct none => some { st with vals := st.vals ++ [Result.ofK none] }
  | .construct (some x) =>
    if st.heap.rc x.addr = 0 then
      some { vals := st.vals ++ [Result.ofK (some x)], heap := st.heap.produce x }
    else none
  | .copy i =>
    match st.vals[i]? with
    | some r => some { vals := st.vals ++ [r.copy.1], heap := st.heap.run r.copy.2 }
    | none => none
  | .assign i j =>
    match st.vals[i]?, st.vals[j]? with
    | some a, some b =>
      some { vals := st.vals.set i (Result.assign (decide (i = j)) a b).1,
             heap := st.heap.run (Result.assign (decide (i = j)) a b).2 }
    | _, _ => none
  | .destroy i =>
    match st.vals[i]? with
    | some r => some { vals := st.vals.eraseIdx i, heap := st.heap.run r.destroy.2 }
    | none => none

/-- The store after a sequence of operations. -/
def Store.run (st : Store) : List VOp → Option Store
  | [] => some st
  | op :: ops =>
    match st.step op with
    | some st1 => st1.run ops
    | none => none

/-! ## Concrete inputs -/

/-- An int-atom payload at address 7. -/
def examplePayload : K0 := { addr := 7, t := -6, s := "", kK := [], k := none }

/-- A store with one live Value, holding `examplePayload` with one reference. -/
def exampleStore : Store :=
  { vals := [Result.ofK (some examplePayload)], heap := Heap.empty.produce examplePayload }

/-- A sequence that connects twice, meets a wait error, connects again and is destroyed. -/
def exampleOps : List COp :=
  [COp.connect (some "127.0.0.1") 5000 none 1000 5,
   COp.connect (some "127.0.0.1") 5000 none 0 6,
   COp.receive 1000 (-1) (fun _ => true) none,
   COp.sync "1+1" none,
   COp.connect (some "127.0.0.1") 5000 none 1000 6,
   COp.destroy]

/-- The symbol vector `a b c`. -/
def exampleSyms : K0 := { addr := 1, t := 11, s := "", kS := ["a", "b", "c"], kK := [], k := none }

/-- The integer vector `1 2 3`. -/
def exampleInts : K0 := { addr := 2, t := 6, s := "", kI := [1, 2, 3], kK := [], k := none }

/-- The integer vector `4 5 6`. -/
def exampleInts2 : K0 := { addr := 3, t := 6, s := "", kI := [4, 5, 6], kK := [], k := none }

/-- The dictionary from `a b c` to `1 2 3`. -/
def exampleDict : K0 :=
  { addr := 4, t := 99, s := "", kK := [exampleSyms, exampleInts], k := none }

/-- The column names `a b`. -/
def exampleNames : K0 := { addr := 5, t := 11, s := "", kS := ["a", "b"], kK := [], k := none }

/-- The mixed list of the two columns `1 2 3` and `4 5 6`. -/
def exampleColumns : K0 :=
  { addr := 6, t := 0, s := "", kK := [exampleInts, exampleInts2], k := none }

/-- The dictionary from the column names to the columns. -/
def exampleTableDict : K0 :=
  { addr := 8, t := 99, s := "", kK := [exampleNames, exampleColumns], k := none }

/-- The table with the columns `a: 1 2 3` and `b: 4 5 6`. -/
def exampleTable : K0 := { addr := 9, t := 98, s := "", kK := [], k := some exampleTableDict }

/-- The byte atom `0x37`. -/
def exampleByte : K0 := { addr := 10, t := -4, s := "", g := 55, kK := [], k := none }

/-- The byte vector `0x3738`. -/
def exampleBytes : K0 := { addr := 11, t := 4, s := "", kG := [55, 56], kK := [], k := none }

/-- The char atom `"7"`. -/
def exampleChar : K0 := { addr := 12, t := -10, s := "", g := 55, kK := [], k := none }

/-! ## Theorems -/

/-- C1: on a Connector with no live handle (`hdl_ ≤ 0`), each of `sync`, `async` and
`receive` issues no transport operation (no `k`, no `select`, no receive-once, no `kclose`,
no open) and leaves the Connector, its handle included, as it was. -/
theorem C1_not_connected_no_transport (c : Connector) (msg : String) (reply : K)
    (timeout retval : Int) (ready : Int → Bool) (pushed : K) (h : c.hdl_ ≤ 0) :
    ((∀ e ∈ (c.sync msg reply).2.2, e.isTransport = false) ∧
        (c.sync msg reply).2.1.hdl_ = c.hdl_) ∧
    ((∀ e ∈ (c.async msg reply).2, e.isTransport = false) ∧
        (c.async msg reply).1.hdl_ = c.hdl_) ∧
    ((∀ e ∈ (c.receive timeout retval ready pushed).2.2, e.isTransport = false) ∧
        (c.receive timeout retval ready pushed).2.1.hdl_ = c.hdl_) := by
  simp [Connector.sync, Connector.async, Connector.receive, h, Event.isTransport]

/-- Witness of C1: a fresh Connector (handle 0). -/
theorem C1_not_connected_no_transport_witness :
    Connector.fresh.hdl_ ≤ 0 ∧
    ((∀ e ∈ (Connector.fresh.sync "1+1" none).2.2, e.isTransport = false) ∧
        (Connector.fresh.sync "1+1" none).2.1.hdl_ = Connector.fresh.hdl_) ∧
    ((∀ e ∈ (Connector.fresh.async "1+1" none).2, e.isTransport = false) ∧
        (Connector.fresh.async "1+1" none).1.hdl_ = Connector.fresh.hdl_) ∧
    ((∀ e ∈ (Connector.fresh.receive 1000 1 (fun _ => true) none).2.2,
          e.isTransport = false) ∧
        (Connector.fresh.receive 1000 1 (fun _ => true) none).2.1.hdl_
          = Connector.fresh.hdl_) :=
  ⟨by decide,
    C1_not_connected_no_transport Connector.fresh "1+1" none 1000 1 (fun _ => true) none
      (by decide)⟩

/-- C2 (what the code does): on a fresh Connector (handle 0) `sync` reaches the end of the
function without a `return` statement, so no Value, the null Value included, is returned;
the only event is the report "Connection not established". -/
theorem C2_sync_not_connected_no_return :
    Connector.fresh.sync "1+1" none
      = (none, Connector.fresh, [Event.err Log.notEstablished]) := by
  decide

/-- After `connect` the stored handle is the one the open handed back. -/
theorem Connector.connect_hdl (c : Connector) (host : Option String) (port : Int)
    (usr_pwd : Option String) (timeout : Int) (h : Int) :
    (c.connect host port usr_pwd timeout h).2.1.hdl_ = h := by
  unfold Connector.connect
  simp only []
  split <;> split <;> (try split) <;> rfl

/-- The value `connect` returns. -/
theorem Connector.connect_ret (c : Connector) (host : Option String) (port : Int)
    (usr_pwd : Option String) (timeout : Int) (h : Int) :
    (c.connect host port usr_pwd timeout h).1 = decide (0 < h) := by
  rcases lt_trichotomy h 0 with h1 | h1 | h1
  · have h2 : ¬ 0 < h := not_lt_of_lt h1
    simp [Connector.connect, h1, h2]
  · subst h1
    simp [Connector.connect]
  · have h2 : ¬ h < 0 := not_lt_of_lt h1
    have h3 : ¬ (0 = h) := fun e => by omega
    simp [Connector.connect, h1, h2, h3]

/-- C3: `connect` returns true exactly when the handle `h` handed back by the open is
positive; then the Connector is Connected and holds `h`. When `h = 0` or `h < 0` it returns
false and the Connector is Disconnected (`hdl_ ≤ 0`), so that `sync`, `async` and `receive`
issue no transport operation; all of this whatever the state before the call. -/
theorem C3_connect_outcome (c : Connector) (host : Option String) (port : Int)
    (usr_pwd : Option String) (timeout : Int) (h : Int) :
    ((c.connect host port usr_pwd timeout h).1 = true ↔ 0 < h) ∧
    (0 < h → (c.connect host port usr_pwd timeout h).2.1.Connected ∧
        (c.connect host port usr_pwd timeout h).2.1.hdl_ = h) ∧
    (h ≤ 0 → (c.connect host port usr_pwd timeout h).1 = false ∧
        (c.connect host port usr_pwd timeout h).2.1.Disconnected ∧
        ∀ (msg : String) (reply : K) (t retval : Int) (ready : Int → Bool) (pushed : K),
          (∀ e ∈ ((c.connect host port usr_pwd timeout h).2.1.sync msg reply).2.2,
              e.isTransport = false) ∧
          (∀ e ∈ ((c.connect host port usr_pwd timeout h).2.1.async msg reply).2,
              e.isTransport = false) ∧
          (∀ e ∈ ((c.connect host port usr_pwd timeout h).2.1.receive t retval ready
              pushed).2.2, e.isTransport = false)) := by
  have hst := Connector.connect_hdl c host port usr_pwd timeout h
  have hret := Connector.connect_ret c host port usr_pwd timeout h
  refine ⟨by simp [hret], fun hp => ⟨by simp [Connector.Connected, hst, hp], hst⟩, fun hn => ?_⟩
  refine ⟨by simp [hret, not_lt_of_le hn], by simp [Connector.Disconnected, hst, hn], ?_⟩
  intro msg reply t retval ready pushed
  have hle : (c.connect host port usr_pwd timeout h).2.1.hdl_ ≤ 0 := by rw [hst]; exact hn
  simp [Connector.sync, Connector.async, Connector.receive, hle, Event.isTransport]

/-- Witness of C3: from a fresh Connector, an open that hands back 5 connects, and an open
that hands back -1 does not. -/
theorem C3_connect_outcome_witness :
    ((0 : Int) < 5 ∧
      (Connector.fresh.connect (some "127.0.0.1") 5000 none 1000 5).2.1.hdl_ = 5) ∧
    ((-1 : Int) ≤ 0 ∧
      (Connector.fresh.connect (some "127.0.0.1") 5000 none 1000 (-1)).1 = false) :=
  ⟨⟨by decide,
      ((C3_connect_outcome Connector.fresh (some "127.0.0.1") 5000 none 1000 5).2.1
        (by decide)).2⟩,
    ⟨by decide,
      ((C3_connect_outcome Connector.fresh (some "127.0.0.1") 5000 none 1000 (-1)).2.2
        (by decide)).1⟩⟩

/-- C4 (as stated, refuted): a Connector whose `connect` failed with the handle `-1` keeps
the handle `-1` through `disconnect`; the handle is not `0` afterwards. -/
theorem C4_disconnect_handle_not_zero :
    ((Connector.fresh.connect (some "127.0.0.1") 5000 none 1000 (-1)).2.1.disconnect).1.hdl_
      ≠ 0 := by
  decide

/-- C4 (amended): `disconnect` is idempotent: calling it twice gives the same Connector as
calling it once, the second call issues no transport operation (no `kclose`), and after a
disconnect the Connector is Disconnected (`hdl_ ≤ 0`): the handle is `0` when it was
Connected, and is the unchanged non-positive handle otherwise. -/
theorem C4_disconnect_idempotent (c : Connector) :
    c.disconnect.1.disconnect.1 = c.disconnect.1 ∧
    (∀ e ∈ c.disconnect.1.disconnect.2, e.isTransport = false) ∧
    c.disconnect.1.Disconnected ∧
    (0 < c.hdl_ → c.disconnect.1.hdl_ = 0) ∧
    (c.hdl_ ≤ 0 → c.disconnect.1.hdl_ = c.hdl_) := by
  by_cases hc : 0 < c.hdl_
  · simp [Connector.disconnect, Connector.Disconnected, hc, Event.isTransport]
  · simp [Connector.disconnect, Connector.Disconnected, hc, Event.isTransport, not_lt.mp hc]

/-- Witness of C4: a Connector holding the handle 3 has the handle 0 after `disconnect`. -/
theorem C4_disconnect_idempotent_witness :
    (0 : Int) < ({ hdl_ := 3 } : Connector).hdl_ ∧
    ({ hdl_ := 3 } : Connector).disconnect.1.hdl_ = 0 :=
  ⟨by decide, (C4_disconnect_idempotent { hdl_ := 3 }).2.2.2.1 (by decide)⟩

/-- C6: on a Connected Connector, when the reply of `k` carries the Error tag `-128`, `sync`
returns the null Value (no payload, `type()` is Error), the reply is released by exactly one
`r0` (which frees a payload that came with one reference) and the returned Value does not
hold it; when `k` hands back no payload, `sync` returns the null Value too and issues no
`r0` at all. -/
theorem C6_sync_error_reply (c : Connector) (msg : String) (x : K0)
    (hc : 0 < c.hdl_) (hx : x.t = -128) :
    ((c.sync msg (some x)).1 = some (Result.ofK none) ∧
      (Result.ofK none).res_ = none ∧ (Result.ofK none).type = Ty.Error ∧
      (c.sync msg (some x)).2.2.filter Event.isR0 = [Event.r0 x] ∧
      (c.sync msg (some x)).2.2.filter Event.isR1 = [] ∧
      (∀ v, (c.sync msg (some x)).1 = some v → v.holds x.addr = false) ∧
      ((Heap.empty.produce x).run (c.sync msg (some x)).2.2).rc x.addr = 0 ∧
      ((Heap.empty.produce x).run (c.sync msg (some x)).2.2).freed = [x.addr]) ∧
    ((c.sync msg none).1 = some (Result.ofK none) ∧
      (c.sync msg none).2.2.filter Event.isR0 = []) := by
  have hc2 : ¬ c.hdl_ ≤ 0 := not_le.mpr hc
  simp [Connector.sync, hc2, hx, Event.isR0, Event.isR1, Result.ofK, Result.type, Result.holds,
    Heap.run, Heap.apply, Heap.produce, Heap.empty]

/-- Witness of C6: a Connector holding the handle 3 and an Error-tagged reply. -/
theorem C6_sync_error_reply_witness :
    (0 : Int) < ({ hdl_ := 3 } : Connector).hdl_ ∧
    ({ addr := 7, t := -128, s := "type", kK := [], k := none } : K0).t = -128 ∧
    (({ hdl_ := 3 } : Connector).sync "1+1"
      (some { addr := 7, t := -128, s := "type", kK := [], k := none })).1
      = some (Result.ofK none) :=
  ⟨by decide, by decide,
    (C6_sync_error_reply { hdl_ := 3 } "1+1"
      { addr := 7, t := -128, s := "type", kK := [], k := none }
      (by decide) (by decide)).1.1⟩

/-- C7: on a Connected Connector, when `select` returns `0` (nothing became readable),
`receive` returns the null Value, issues no receive-once and no `kclose`, reports "no data
within `timeout` ms", and leaves the Connector as it was, Connected with the same handle. -/
theorem C7_receive_timeout (c : Connector) (timeout : Int) (ready : Int → Bool) (pushed : K)
    (hc : 0 < c.hdl_) :
    (c.receive timeout 0 ready pushed).1 = Result.ofK none ∧
    (Result.ofK none).res_ = none ∧
    (∀ e ∈ (c.receive timeout 0 ready pushed).2.2, e.isRecv = false ∧ e.isClose = false) ∧
    Event.err (Log.noData timeout) ∈ (c.receive timeout 0 ready pushed).2.2 ∧
    (c.receive timeout 0 ready pushed).2.1 = c ∧
    (c.receive timeout 0 ready pushed).2.1.Connected := by
  have hc2 : ¬ c.hdl_ ≤ 0 := not_le.mpr hc
  simp [Connector.receive, hc2, Event.isRecv, Event.isClose, Result.ofK, Connector.Connected, hc]

/-- Witness of C7: a Connector holding the handle 3, a wait of 1000 ms. -/
theorem C7_receive_timeout_witness :
    (0 : Int) < ({ hdl_ := 3 } : Connector).hdl_ ∧
    (({ hdl_ := 3 } : Connector).receive 1000 0 (fun _ => false) none).2.1
      = ({ hdl_ := 3 } : Connector) :=
  ⟨by decide,
    (C7_receive_timeout { hdl_ := 3 } 1000 (fun _ => false) none (by decide)).2.2.2.2.1⟩

/-- C8: on a Connected Connector, when `select` returns `-1`, `receive` takes the wait-error
outcome only: it reports the connection error, closes the handle exactly once, leaves the
Connector Disconnected with the handle `0`, returns the null Value, issues no receive-once
call on any handle, and does not report the timeout. -/
theorem C8_receive_wait_error (c : Connector) (timeout : Int) (ready : Int → Bool)
    (pushed : K) (hc : 0 < c.hdl_) :
    (c.receive timeout (-1) ready pushed).1 = Result.ofK none ∧
    (Result.ofK none).res_ = none ∧
    (c.receive timeout (-1) ready pushed).2.1.hdl_ = 0 ∧
    (c.receive timeout (-1) ready pushed).2.1.Disconnected ∧
    (c.receive timeout (-1) ready pushed).2.2.filter Event.isClose = [Event.kclose c.hdl_] ∧
    (∀ e ∈ (c.receive timeout (-1) ready pushed).2.2, e.isRecv = false) ∧
    Event.err Log.connectionError ∈ (c.receive timeout (-1) ready pushed).2.2 ∧
    (∀ t, Event.err (Log.noData t) ∉ (c.receive timeout (-1) ready pushed).2.2) := by
  have hc2 : ¬ c.hdl_ ≤ 0 := not_le.mpr hc
  have hne : ¬ (0 = c.hdl_) := fun e => by omega
  have hne2 : ¬ (c.hdl_ = 0) := fun e => by omega
  simp [Connector.receive, Connector.disconnect, hc2, hc, hne, hne2, Event.isRecv,
    Event.isClose, Result.ofK, Connector.Disconnected, FD_ISSET, FD_SET, FD_ZERO,
    List.filter_cons]

/-- Witness of C8: a Connector holding the handle 3; `select` fails and leaves its set
untouched. -/
theorem C8_receive_wait_error_witness :
    (0 : Int) < ({ hdl_ := 3 } : Connector).hdl_ ∧
    (({ hdl_ := 3 } : Connector).receive 1000 (-1) (fun _ => true) none).2.2.filter
        Event.isClose = [Event.kclose 3] :=
  ⟨by decide,
    (C8_receive_wait_error { hdl_ := 3 } 1000 (fun _ => true) none (by decide)).2.2.2.2.1⟩

/-! ### The transport discipline over sequences of operations -/

theorem Transport.after_append (live : List Int) (a b : List Event) :
    Transport.after live (a ++ b) = Transport.after (Transport.after live a) b := by
  simp [Transport.after, List.foldl_append]

theorem Transport.ok_append (live : List Int) (a b : List Event) :
    Transport.ok live (a ++ b)
      = (Transport.ok live a && Transport.ok (Transport.after live a) b) := by
  induction a generalizing live with
  | nil =>
    cases b with
    | nil => simp [Transport.ok, Transport.after]
    | cons e evs =>
      by_cases hl : live.length ≤ 1 <;> simp [Transport.ok, Transport.after, hl]
  | cons e evs ih =>
    simp [Transport.ok, Transport.after, ih, Bool.and_assoc]

theorem Transport.ok_length (live : List Int) (evs : List Event)
    (h : Transport.ok live evs = true) : live.length ≤ 1 := by
  cases evs with
  | nil => simpa [Transport.ok] using h
  | cons e evs =>
    simp only [Transport.ok, Bool.and_eq_true, decide_eq_true_eq] at h
    exact h.1.1

/-- What one operation does to the transport, started with exactly the Connector's own
handle open: the discipline holds throughout, the open handles afterwards are again the
Connector's own, and closes and successful opens balance. -/
theorem Connector.step_transport (c : Connector) (op : COp) :
    Transport.ok c.openHandles (c.step op).2 = true ∧
    Transport.after c.openHandles (c.step op).2 = (c.step op).1.openHandles ∧
    (c.step op).2.countP Event.isClose + (c.step op).1.openHandles.length
      = (c.step op).2.countP Event.isOpenOk + c.openHandles.length := by
  cases op with
  | connect host port usr_pwd timeout h =>
    by_cases hc : 0 < c.hdl_ <;> by_cases ht : 0 < timeout <;> by_cases hn : h < 0
    all_goals first
      | (have hp : ¬ 0 < h := by omega
         simp [Connector.step, Connector.connect, Connector.disconnect, Connector.openHandles,
           Transport.ok, Transport.allows, Transport.apply, Transport.after, Event.isClose,
           Event.isOpenOk, hc, ht, hn, hp, List.countP_cons])
      | (by_cases hz : 0 = h
         · subst hz
           simp [Connector.step, Connector.connect, Connector.disconnect,
             Connector.openHandles, Transport.ok, Transport.allows, Transport.apply,
             Transport.after, Event.isClose, Event.isOpenOk, hc, ht, List.countP_cons]
         · have hp : 0 < h := by omega
           simp [Connector.step, Connector.connect, Connector.disconnect,
             Connector.openHandles, Transport.ok, Transport.allows, Transport.apply,
             Transport.after, Event.isClose, Event.isOpenOk, hc, ht, hn, hz, hp,
             List.countP_cons])
  | disconnect =>
    by_cases hc : 0 < c.hdl_ <;>
      simp [Connector.step, Connector.disconnect, Connector.openHandles,
        Transport.ok, Transport.allows, Transport.apply, Transport.after, Event.isClose,
        Event.isOpenOk, hc, List.countP_cons]
  | sync msg reply =>
    by_cases hc : 0 < c.hdl_
    · have hc2 : ¬ c.hdl_ ≤ 0 := not_le.mpr hc
      rcases reply with _ | x
      · simp [Connector.step, Connector.sync, Connector.openHandles, Transport.ok,
          Transport.allows, Transport.apply, Transport.after, Event.isClose, Event.isOpenOk,
          hc, hc2, List.countP_cons]
      · by_cases hx : -128 = x.t <;>
          simp [Connector.step, Connector.sync, Connector.openHandles, Transport.ok,
            Transport.allows, Transport.apply, Transport.after, Event.isClose,
            Event.isOpenOk, hc, hc2, hx, List.countP_cons]
    · simp [Connector.step, Connector.sync, Connector.openHandles, Transport.ok,
        Transport.allows, Transport.apply, Transport.after, Event.isClose, Event.isOpenOk,
        hc, not_lt.mp hc, List.countP_cons]
  | async msg reply =>
    by_cases hc : 0 < c.hdl_
    · have hc2 : ¬ c.hdl_ ≤ 0 := not_le.mpr hc
      rcases reply with _ | x <;>
        simp [Connector.step, Connector.async, Connector.openHandles, Transport.ok,
          Transport.allows, Transport.apply, Transport.after, Event.isClose, Event.isOpenOk,
          hc, hc2, List.countP_cons]
    · simp [Connector.step, Connector.async, Connector.openHandles, Transport.ok,
        Transport.allows, Transport.apply, Transport.after, Event.isClose, Event.isOpenOk,
        hc, not_lt.mp hc, List.countP_cons]
  | receive timeout retval ready pushed =>
    by_cases hc : 0 < c.hdl_
    · have hc2 : ¬ c.hdl_ ≤ 0 := not_le.mpr hc
      have hne : ¬ (0 = c.hdl_) := fun e => by omega
      have hne2 : ¬ (c.hdl_ = 0) := fun e => by omega
      by_cases hr : retval = -1
      · subst hr
        simp [Connector.step, Connector.receive, Connector.disconnect, Connector.openHandles,
          Transport.ok, Transport.allows, Transport.apply, Transport.after, Event.isClose,
          Event.isOpenOk, hc, hc2, hne, hne2, List.countP_cons, FD_ISSET, FD_SET, FD_ZERO,
          List.filter_cons]
      · by_cases hr0 : retval = 0
        · subst hr0
          simp [Connector.step, Connector.receive, Connector.openHandles,
            Transport.ok, Transport.allows, Transport.apply, Transport.after, Event.isClose,
            Event.isOpenOk, hc, hc2, List.countP_cons]
        · by_cases hf : ready c.hdl_ = true <;>
            simp [Connector.step, Connector.receive, Connector.openHandles,
              Transport.ok, Transport.allows, Transport.apply, Transport.after,
              Event.isClose, Event.isOpenOk, hc, hc2, hr, hr0, hf, List.countP_cons,
              FD_ISSET, FD_SET, FD_ZERO, List.filter_cons]
    · simp [Connector.step, Connector.receive, Connector.openHandles, Transport.ok,
        Transport.allows, Transport.apply, Transport.after, Event.isClose, Event.isOpenOk,
        hc, not_lt.mp hc, List.countP_cons]
  | destroy =>
    by_cases hc : 0 < c.hdl_ <;>
      simp [Connector.step, Connector.destroy, Connector.disconnect, Connector.openHandles,
        Transport.ok, Transport.allows, Transport.apply, Transport.after, Event.isClose,
        Event.isOpenOk, hc, List.countP_cons]

theorem Connector.openHandles_length (c : Connector) : c.openHandles.length ≤ 1 := by
  unfold Connector.openHandles
  split <;> simp

/-- The transport discipline over a whole sequence of operations, from any Connector whose
own handle is the only one open. -/
theorem Connector.run_transport (c : Connector) (ops : List COp) :
    Transport.ok c.openHandles (c.run ops).2 = true ∧
    Transport.after c.openHandles (c.run ops).2 = (c.run ops).1.openHandles ∧
    (c.run ops).2.countP Event.isClose + (c.run ops).1.openHandles.length
      = (c.run ops).2.countP Event.isOpenOk + c.openHandles.length := by
  induction ops generalizing c with
  | nil =>
    simp [Connector.run, Transport.ok, Transport.after, Connector.openHandles_length]
  | cons op ops ih =>
    obtain ⟨h1, h2, h3⟩ := Connector.step_transport c op
    obtain ⟨i1, i2, i3⟩ := ih (c.step op).1
    refine ⟨?_, ?_, ?_⟩
    · simp only [Connector.run]
      rw [Transport.ok_append, h1, h2, i1]
      rfl
    · simp only [Connector.run]
      rw [Transport.after_append, h2, i2]
    · simp only [Connector.run, List.countP_append]
      omega

/-- When the discipline holds on a trace, at most one handle is open after each of its
prefixes. -/
theorem Transport.ok_prefix (live : List Int) (pre suf : List Event)
    (h : Transport.ok live (pre ++ suf) = true) :
    (Transport.after live pre).length ≤ 1 := by
  rw [Transport.ok_append, Bool.and_eq_true] at h
  exact Transport.ok_length _ _ h.2

/-- When the discipline holds on a trace, each `kclose(h)` in it is issued while `h` is
open, and `h` is positive. -/
theorem Transport.ok_close (live : List Int) (pre suf : List Event) (h : Int)
    (hok : Transport.ok live (pre ++ Event.kclose h :: suf) = true) :
    h ∈ Transport.after live pre ∧ 0 < h := by
  rw [Transport.ok_append, Bool.and_eq_true] at hok
  have h2 := hok.2
  simp only [Transport.ok, Transport.allows, Bool.and_eq_true, decide_eq_true_eq] at h2
  exact h2.1.2

/-- C5: over every sequence of connect, disconnect, sync, async, receive and destruction
from a fresh Connector, with the transport as the set of open handles: the discipline
holds event by event, i.e. after every prefix of the events at most one handle is open, and
every `kclose(h)` is issued on a positive handle that is open at that moment; at the end
the open handles are exactly the Connector's live handle (none when Disconnected); closes
plus handles still open equal the successful opens; a final destruction leaves nothing
open, with exactly as many closes as successful opens; and `connect` on a Connected
Connector closes the old handle before it opens. -/
theorem C5_one_open_handle (ops : List COp) :
    Transport.ok [] (Connector.fresh.run ops).2 = true ∧
    (∀ pre suf, (Connector.fresh.run ops).2 = pre ++ suf →
        (Transport.after [] pre).length ≤ 1) ∧
    (∀ pre h suf, (Connector.fresh.run ops).2 = pre ++ Event.kclose h :: suf →
        h ∈ Transport.after [] pre ∧ 0 < h) ∧
    Transport.after [] (Connector.fresh.run ops).2
      = (Connector.fresh.run ops).1.openHandles ∧
    (Connector.fresh.run ops).2.countP Event.isClose
        + (Connector.fresh.run ops).1.openHandles.length
      = (Connector.fresh.run ops).2.countP Event.isOpenOk ∧
    (Transport.after [] (Connector.fresh.run (ops ++ [COp.destroy])).2 = [] ∧
      (Connector.fresh.run (ops ++ [COp.destroy])).2.countP Event.isClose
        = (Connector.fresh.run (ops ++ [COp.destroy])).2.countP Event.isOpenOk) ∧
    (∀ (c : Connector) host port usr_pwd timeout h, 0 < c.hdl_ →
        (c.connect host port usr_pwd timeout h).2.2.filter Event.isTransport
          = [Event.kclose c.hdl_,
              if 0 < timeout then Event.khpun (host.getD "") port (usr_pwd.getD "") timeout h
              else Event.khpu (host.getD "") port (usr_pwd.getD "") h]) := by
  have hfresh : Connector.fresh.openHandles = [] := by decide
  obtain ⟨h1, h2, h3⟩ := Connector.run_transport Connector.fresh ops
  rw [hfresh] at h1 h2 h3
  refine ⟨h1, ?_, ?_, h2, by simpa using h3, ?_, ?_⟩
  · intro pre suf e
    rw [e] at h1
    exact Transport.ok_prefix [] pre suf h1
  · intro pre h suf e
    rw [e] at h1
    exact Transport.ok_close [] pre suf h h1
  · obtain ⟨_, k2, k3⟩ := Connector.run_transport Connector.fresh (ops ++ [COp.destroy])
    rw [hfresh] at k2 k3
    rw [k2]
    suffices hnil : (Connector.fresh.run (ops ++ [COp.destroy])).1.openHandles = [] by
      rw [hnil] at k3
      exact ⟨hnil, by simpa using k3⟩
    have hrun : ∀ (c : Connector) (l : List COp),
        (c.run (l ++ [COp.destroy])).1 = (c.run l).1.disconnect.1 := by
      intro c l
      induction l generalizing c with
      | nil => simp [Connector.run, Connector.step, Connector.destroy]
      | cons op l ih => simp [Connector.run, ih]
    rw [hrun]
    by_cases hc : 0 < (Connector.fresh.run ops).1.hdl_ <;>
      simp [Connector.disconnect, Connector.openHandles, hc]
  · intro c host port usr_pwd timeout h hc
    by_cases ht : 0 < timeout <;> rcases lt_trichotomy h 0 with hn | hn | hn
    all_goals first
      | (subst hn
         simp [Connector.connect, Connector.disconnect, hc, ht, Event.isTransport,
           List.filter_cons])
      | (have hz : ¬ (0 = h) := fun e => by omega
         have hn2 : ¬ h < 0 := by omega
         simp [Connector.connect, Connector.disconnect, hc, ht, hn, hn2, hz,
           Event.isTransport, List.filter_cons])
      | simp [Connector.connect, Connector.disconnect, hc, ht, hn, Event.isTransport,
           List.filter_cons]

/-- Witness of C5: on `exampleOps` the discipline holds and nothing is left open. -/
theorem C5_one_open_handle_witness :
    Transport.ok [] (Connector.fresh.run exampleOps).2 = true ∧
    Transport.after [] (Connector.fresh.run exampleOps).2
      = (Connector.fresh.run exampleOps).1.openHandles :=
  ⟨(C5_one_open_handle exampleOps).1, (C5_one_open_handle exampleOps).2.2.2.1⟩

/-! ### Reference counts -/

theorem holders_append (a : Nat) (vals : List Result) (r : Result) :
    holders a (vals ++ [r]) = holders a vals + (if r.holds a then 1 else 0) := by
  simp [holders, List.countP_append, List.countP_cons]

theorem holders_set (a : Nat) (vals : List Result) (i : Nat) (r r' : Result)
    (h : vals[i]? = some r) :
    holders a (vals.set i r') + (if r.holds a then 1 else 0)
      = holders a vals + (if r'.holds a then 1 else 0) := by
  induction vals generalizing i with
  | nil => simp at h
  | cons v vs ih =>
    cases i with
    | zero =>
      simp only [List.getElem?_cons_zero, Option.some.injEq] at h
      subst h
      simp only [holders, List.set_cons_zero, List.countP_cons]
      omega
    | succ n =>
      simp only [List.getElem?_cons_succ] at h
      have := ih n h
      simp only [holders, List.set_cons_succ, List.countP_cons] at this ⊢
      omega

theorem holders_eraseIdx (a : Nat) (vals : List Result) (i : Nat) (r : Result)
    (h : vals[i]? = some r) :
    holders a (vals.eraseIdx i) + (if r.holds a then 1 else 0) = holders a vals := by
  induction vals generalizing i with
  | nil => simp at h
  | cons v vs ih =>
    cases i with
    | zero =>
      simp only [List.getElem?_cons_zero, Option.some.injEq] at h
      subst h
      simp only [holders, List.eraseIdx_cons_zero, List.countP_cons]
    | succ n =>
      simp only [List.getElem?_cons_succ] at h
      have := ih n h
      simp only [holders, List.eraseIdx_cons_succ, List.countP_cons] at this ⊢
      omega

theorem holders_pos (a : Nat) (vals : List Result) (i : Nat) (r : Result)
    (h : vals[i]? = some r) (hr : r.holds a = true) : 1 ≤ holders a vals := by
  have := holders_eraseIdx a vals i r h
  simp only [hr, if_true] at this
  omega

theorem holders_two (a : Nat) (vals : List Result) (i j : Nat) (ri rj : Result)
    (hij : i ≠ j) (hi : vals[i]? = some ri) (hj : vals[j]? = some rj)
    (hri : ri.holds a = true) (hrj : rj.holds a = true) : 2 ≤ holders a vals := by
  have h1 := holders_set a vals i ri (Result.ofK none) hi
  have h2 : (vals.set i (Result.ofK none))[j]? = some rj := by
    rw [List.getElem?_set_ne hij]
    exact hj
  have h3 := holders_pos a _ j rj h2 hrj
  have h4 : (Result.ofK none).holds a = false := rfl
  rw [if_pos hri, h4] at h1
  simp only [Bool.false_eq_true, if_false] at h1
  omega

theorem Result.holds_iff (a : Nat) (r : Result) :
    r.holds a = true ↔ ∃ x, r.res_ = some x ∧ x.addr = a := by
  unfold Result.holds
  cases r.res_ <;> simp

/-- One operation on a store whose counts agree with the holders: the counts agree again
afterwards, and a payload is freed only by destroying or reassigning its last holder. -/
theorem Store.step_spec (st st' : Store) (op : VOp)
    (hinv : ∀ a, st.heap.rc a = holders a st.vals) (h : st.step op = some st') :
    (∀ a, st'.heap.rc a = holders a st'.vals) ∧
    (st'.heap.freed = st.heap.freed ∨
      ∃ a, st'.heap.freed = a :: st.heap.freed ∧ holders a st.vals = 1 ∧
        holders a st'.vals = 0 ∧
        ∃ i r, st.vals[i]? = some r ∧ r.holds a = true ∧
          (op = VOp.destroy i ∨ ∃ j, op = VOp.assign i j)) := by
  cases op with
  | construct res =>
    cases res with
    | none =>
      simp only [Store.step, Option.some.injEq] at h
      subst h
      refine ⟨fun a => ?_, Or.inl rfl⟩
      simp [holders_append, hinv a, Result.holds, Result.ofK]
    | some x =>
      simp only [Store.step] at h
      split at h
      · rename_i h0
        simp only [Option.some.injEq] at h
        subst h
        refine ⟨fun a => ?_, Or.inl rfl⟩
        simp only [holders_append, Heap.produce, Function.update_apply, Result.holds,
          Result.ofK]
        by_cases ha : a = x.addr
        · subst ha
          have := hinv x.addr
          simp [← this, h0]
        · have : ¬ x.addr = a := fun e => ha e.symm
          simp [ha, this, hinv a]
      · simp at h
  | copy i =>
    simp only [Store.step] at h
    split at h
    · rename_i r hr
      simp only [Option.some.injEq] at h
      subst h
      rcases hres : r.res_ with _ | x
      · refine ⟨fun a => ?_, Or.inl ?_⟩
        · simp [holders_append, Result.copy, hres, Heap.run, Result.holds, hinv a]
        · simp [Result.copy, hres, Heap.run]
      · refine ⟨fun a => ?_, Or.inl ?_⟩
        · simp only [holders_append, Result.copy, hres, Heap.run, List.foldl, Heap.apply,
            Result.holds, Function.update_apply]
          by_cases ha : a = x.addr
          · subst ha
            simp [hinv x.addr]
          · have : ¬ x.addr = a := fun e => ha e.symm
            simp [ha, this, hinv a]
        · simp [Result.copy, hres, Heap.run, Heap.apply]
    · simp at h
  | assign i j =>
    simp only [Store.step] at h
    split at h
    · rename_i ri rj hi hj
      simp only [Option.some.injEq] at h
      subst h
      by_cases hij : i = j
      · subst hij
        refine ⟨fun a => ?_, Or.inl ?_⟩
        · have hs := holders_set a st.vals i ri ri hi
          simp only [Result.assign, decide_True, if_true, Heap.run, List.foldl]
          rw [hinv a]
          omega
        · simp [Result.assign, Heap.run]
      · have hd : decide (i = j) = false := by simp [hij]
        rcases hx : ri.res_ with _ | x <;> rcases hy : rj.res_ with _ | y
        · have hasg : Result.assign (decide (i = j)) ri rj = ({ res_ := none }, []) := by
            simp [Result.assign, hd, hx, hy]
          rw [hasg]
          refine ⟨fun a => ?_, Or.inl rfl⟩
          have hs := holders_set a st.vals i ri { res_ := none } hi
          simp only [Result.holds, hx] at hs
          simp only [Heap.run, List.foldl]
          rw [hinv a]
          simpa using hs.symm
        · have hasg : Result.assign (decide (i = j)) ri rj
              = ({ res_ := some y }, [Event.r1 y]) := by
            simp [Result.assign, hd, hx, hy]
          rw [hasg]
          refine ⟨fun a => ?_, Or.inl rfl⟩
          have hs := holders_set a st.vals i ri { res_ := some y } hi
          simp only [Result.holds, hx] at hs
          simp only [Heap.run, List.foldl, Heap.apply, Function.update_apply]
          have h2 := hinv a
          by_cases ha : a = y.addr
          · subst ha
            simp at hs ⊢
            omega
          · have : ¬ y.addr = a := fun e => ha e.symm
            simp [ha, this] at hs ⊢
            omega
        · have hasg : Result.assign (decide (i = j)) ri rj
              = ({ res_ := none }, [Event.r0 x]) := by
            simp [Result.assign, hd, hx, hy]
          rw [hasg]
          have hh : ri.holds x.addr = true := by simp [Result.holds, hx]
          have hp := holders_pos x.addr st.vals i ri hi hh
          have hsx := holders_set x.addr st.vals i ri { res_ := none } hi
          rw [if_pos hh] at hsx
          simp only [Result.holds] at hsx
          refine ⟨fun a => ?_, ?_⟩
          · have hs := holders_set a st.vals i ri { res_ := none } hi
            simp only [Result.holds, hx] at hs
            simp only [Heap.run, List.foldl, Heap.apply, Function.update_apply]
            have h2 := hinv a
            by_cases ha : a = x.addr
            · subst ha
              simp at hs ⊢
              omega
            · have : ¬ x.addr = a := fun e => ha e.symm
              simp [ha, this] at hs ⊢
              omega
          · simp only [Heap.run, List.foldl, Heap.apply]
            by_cases h1 : st.heap.rc x.addr ≤ 1
            · right
              have h2 := hinv x.addr
              simp at hsx
              refine ⟨x.addr, by simp [h1], by omega, by omega, i, ri, hi, hh,
                Or.inr ⟨j, rfl⟩⟩
            · left
              simp [h1]
        · have hasg : Result.assign (decide (i = j)) ri rj
              = ({ res_ := some y }, [Event.r0 x, Event.r1 y]) := by
            simp [Result.assign, hd, hx, hy]
          rw [hasg]
          have hh : ri.holds x.addr = true := by simp [Result.holds, hx]
          have hp := holders_pos x.addr st.vals i ri hi hh
          refine ⟨fun a => ?_, ?_⟩
          · have hs := holders_set a st.vals i ri { res_ := some y } hi
            simp only [Result.holds, hx] at hs
            simp only [Heap.run, List.foldl, Heap.apply, Function.update_apply]
            have h2 := hinv a
            have h3 := hinv x.addr
            by_cases ha : a = x.addr <;> by_cases hb : a = y.addr
            · subst ha
              have hxy : y.addr = x.addr := hb.symm
              simp [hxy] at hs ⊢
              omega
            · subst ha
              have hxy : ¬ y.addr = x.addr := fun e => hb e.symm
              simp [hxy, hb] at hs ⊢
              omega
            · subst hb
              have hxy : ¬ x.addr = y.addr := fun e => ha e.symm
              simp [hxy, ha] at hs ⊢
              omega
            · have hxa : ¬ x.addr = a := fun e => ha e.symm
              have hya : ¬ y.addr = a := fun e => hb e.symm
              simp [ha, hb, hxa, hya] at hs ⊢
              omega
          · simp only [Heap.run, List.foldl, Heap.apply]
            by_cases h1 : st.heap.rc x.addr ≤ 1
            · right
              have h2 := hinv x.addr
              have hne : ¬ y.addr = x.addr := by
                intro e
                have hrj : rj.holds x.addr = true := by simp [Result.holds, hy, e]
                have := holders_two x.addr st.vals i j ri rj hij hi hj hh hrj
                omega
              have hsx := holders_set x.addr st.vals i ri { res_ := some y } hi
              rw [if_pos hh] at hsx
              simp [Result.holds, hne] at hsx
              refine ⟨x.addr, by simp [h1], by omega, by omega, i, ri, hi, hh,
                Or.inr ⟨j, rfl⟩⟩
            · left
              simp [h1]
    · simp at h
  | destroy i =>
    simp only [Store.step] at h
    split at h
    · rename_i r hr
      simp only [Option.some.injEq] at h
      subst h
      rcases hres : r.res_ with _ | x
      · refine ⟨fun a => ?_, Or.inl ?_⟩
        · have hs := holders_eraseIdx a st.vals i r hr
          simp only [Result.holds, hres] at hs
          simp only [Result.destroy, hres, Heap.run, List.foldl]
          rw [hinv a]
          simpa using hs.symm
        · simp [Result.destroy, hres, Heap.run]
      · have hh : r.holds x.addr = true := by simp [Result.holds, hres]
        have hp := holders_pos x.addr st.vals i r hr hh
        have hsx := holders_eraseIdx x.addr st.vals i r hr
        rw [if_pos hh] at hsx
        refine ⟨fun a => ?_, ?_⟩
        · have hs := holders_eraseIdx a st.vals i r hr
          simp only [Result.holds, hres] at hs
          simp only [Result.destroy, hres, Heap.run, List.foldl, Heap.apply,
            Function.update_apply]
          by_cases ha : a = x.addr
          · subst ha
            simp only [if_true]
            rw [hinv x.addr]
            omega
          · have : ¬ x.addr = a := fun e => ha e.symm
            simp only [ha, if_false]
            rw [hinv a]
            simpa [this] using hs.symm
        · simp only [Result.destroy, hres, Heap.run, List.foldl, Heap.apply]
          by_cases h1 : st.heap.rc x.addr ≤ 1
          · right
            have h2 := hinv x.addr
            refine ⟨x.addr, by simp [h1], by omega, by omega, i, r, hr, hh, Or.inl rfl⟩
          · left
            simp [h1]
    · simp at h

/-- The counts agree with the holders after every sequence of operations that starts from
a store where they agree. -/
theorem Store.run_inv (ops : List VOp) (st0 st : Store)
    (hinv : ∀ a, st0.heap.rc a = holders a st0.vals) (h : st0.run ops = some st) :
    ∀ a, st.heap.rc a = holders a st.vals := by
  induction ops generalizing st0 with
  | nil =>
    simp only [Store.run, Option.some.injEq] at h
    subst h
    exact hinv
  | cons op ops ih =>
    simp only [Store.run] at h
    split at h
    · rename_i st1 h1
      exact ih st1 (Store.step_spec st0 st1 op hinv h1).1 h
    · simp at h

/-- C9: with the payload reference counts as an explicit map, and every raw payload handed
over by the producer with one reference: after every sequence of Value operations
(construct from a raw payload, copy-construct, assign, destroy) from the empty store, each
payload's count equals the number of live Values holding it; one more operation frees a
payload only if it destroys or reassigns the single Value that held it (and no Value holds
it afterwards); and an assignment between two distinct Values that hold the same payload
is performed, leaves that payload's count and its holders unchanged, and frees nothing. -/
theorem C9_refcount_equals_holders (ops : List VOp) (st : Store)
    (h : Store.empty.run ops = some st) :
    (∀ a, st.heap.rc a = holders a st.vals) ∧
    (∀ op st', st.step op = some st' →
      (st'.heap.freed = st.heap.freed ∨
        ∃ a, st'.heap.freed = a :: st.heap.freed ∧ holders a st.vals = 1 ∧
          holders a st'.vals = 0 ∧
          ∃ i r, st.vals[i]? = some r ∧ r.holds a = true ∧
            (op = VOp.destroy i ∨ ∃ j, op = VOp.assign i j))) ∧
    (∀ i j ri rj a, i ≠ j → st.vals[i]? = some ri → st.vals[j]? = some rj →
      ri.holds a = true → rj.holds a = true →
      ∃ st', st.step (VOp.assign i j) = some st' ∧ st'.heap.rc a = st.heap.rc a ∧
        holders a st'.vals = holders a st.vals ∧ st'.heap.freed = st.heap.freed) := by
  have hinv : ∀ a, st.heap.rc a = holders a st.vals :=
    Store.run_inv ops Store.empty st (fun a => by simp [Store.empty, Heap.empty, holders]) h
  refine ⟨hinv, fun op st' hs => (Store.step_spec st st' op hinv hs).2, ?_⟩
  intro i j ri rj a hij hi hj hri hrj
  have hstep : st.step (VOp.assign i j)
      = some { vals := st.vals.set i (Result.assign (decide (i = j)) ri rj).1,
               heap := st.heap.run (Result.assign (decide (i = j)) ri rj).2 } := by
    simp [Store.step, hi, hj]
  refine ⟨_, hstep, ?_⟩
  obtain ⟨hinv2, hfree⟩ := Store.step_spec st _ _ hinv hstep
  have hnew : (Result.assign (decide (i = j)) ri rj).1.holds a = true := by
    simp only [Result.assign, hij, decide_False, Bool.false_eq_true, if_false]
    simpa [Result.holds] using hrj
  have hs := holders_set a st.vals i ri (Result.assign (decide (i = j)) ri rj).1 hi
  rw [if_pos hri, if_pos hnew] at hs
  have htwo := holders_two a st.vals i j ri rj hij hi hj hri hrj
  refine ⟨?_, ?_, ?_⟩
  · rw [hinv2 a, hinv a]
    exact Nat.add_right_cancel hs
  · exact Nat.add_right_cancel hs
  · rcases hfree with hf | ⟨b, _, hb1, _, i2, r2, hi2, hr2, hop⟩
    · exact hf
    · exfalso
      have hii : i2 = i := by
        rcases hop with hop | ⟨j2, hop⟩
        · cases hop
        · cases hop
          rfl
      subst hii
      rw [hi] at hi2
      cases hi2
      obtain ⟨x, hx, hxa⟩ := (Result.holds_iff a ri).1 hri
      obtain ⟨y, hy, hyb⟩ := (Result.holds_iff b ri).1 hr2
      rw [hx] at hy
      cases hy
      rw [hxa] at hyb
      subst hyb
      omega

/-- Witness of C9: a payload is constructed and copied; its count is then its two holders,
and assigning the copy to the original leaves the count unchanged and frees nothing. -/
theorem C9_refcount_equals_holders_witness :
    ∃ st, Store.empty.run [VOp.construct (some examplePayload), VOp.copy 0] = some st ∧
      (∀ a, st.heap.rc a = holders a st.vals) ∧
      ∃ st', st.step (VOp.assign 0 1) = some st' ∧ st'.heap.rc 7 = st.heap.rc 7 ∧
        holders 7 st'.vals = holders 7 st.vals ∧ st'.heap.freed = st.heap.freed :=
  ⟨_, rfl,
    (C9_refcount_equals_holders [VOp.construct (some examplePayload), VOp.copy 0] _ rfl).1,
    (C9_refcount_equals_holders [VOp.construct (some examplePayload), VOp.copy 0] _ rfl).2.2
      0 1 (Result.ofK (some examplePayload)) (Result.ofK (some examplePayload)) 7
      (by decide) rfl rfl rfl rfl⟩

theorem eraseIdx_concat_length {α : Type} (l : List α) (a : α) :
    (l ++ [a]).eraseIdx l.length = l := by
  induction l with
  | nil => rfl
  | cons x xs ih => simp [List.eraseIdx_cons_succ, ih]

/-- C10: for a Value `v` of the store, null or live (a live Value's payload has a count of
at least one): copy-constructing a Value from `v` and then destroying the copy is
performed, gives back the same Values, the same count for every payload and the same freed
payloads (nothing is freed), and `v` is still in its place, with the same payload, the
same `type()` and the same rendering. -/
theorem C10_copy_then_destroy (st : Store) (i : Nat) (v : Result)
    (hv : st.vals[i]? = some v) (hlive : ∀ x, v.res_ = some x → 1 ≤ st.heap.rc x.addr) :
    ∃ st', st.run [VOp.copy i, VOp.destroy st.vals.length] = some st' ∧
      st'.vals = st.vals ∧ st'.heap.rc = st.heap.rc ∧ st'.heap.freed = st.heap.freed ∧
      st'.vals[i]? = some v ∧
      (∀ v', st'.vals[i]? = some v' → v'.res_ = v.res_ ∧ v'.type = v.type ∧
        ∀ lib, v'.render lib = v.render lib) := by
  rcases hres : v.res_ with _ | x
  · refine ⟨st, ?_, rfl, rfl, rfl, hv, ?_⟩
    · simp [Store.run, Store.step, hv, Result.copy, Result.destroy, hres, Heap.run,
        eraseIdx_concat_length]
    · intro v' hv'
      rw [hv] at hv'
      cases hv'
      exact ⟨hres, rfl, fun _ => rfl⟩
  · have h1 := hlive x hres
    have hrc : Function.update (Function.update st.heap.rc x.addr (st.heap.rc x.addr + 1))
        x.addr (st.heap.rc x.addr + 1 - 1) = st.heap.rc := by
      funext a
      by_cases ha : a = x.addr
      · subst ha
        simp
      · simp [Function.update_apply, ha]
    refine ⟨{ vals := st.vals, heap := { rc := st.heap.rc, freed := st.heap.freed } },
      ?_, rfl, rfl, rfl, hv, ?_⟩
    · simp [Store.run, Store.step, hv, Result.copy, Result.destroy, hres, Heap.run,
        Heap.apply, eraseIdx_concat_length, hrc]
      omega
    · intro v' hv'
      simp only [] at hv'
      rw [hv] at hv'
      cases hv'
      exact ⟨hres, rfl, fun _ => rfl⟩

/-- Witness of C10: the one Value of `exampleStore` is copied and the copy destroyed. -/
theorem C10_copy_then_destroy_witness :
    exampleStore.vals[0]? = some (Result.ofK (some examplePayload)) ∧
    (∀ x, (Result.ofK (some examplePayload)).res_ = some x →
      1 ≤ exampleStore.heap.rc x.addr) ∧
    ∃ st', exampleStore.run [VOp.copy 0, VOp.destroy exampleStore.vals.length] = some st' ∧
      st'.vals = exampleStore.vals ∧ st'.heap.rc = exampleStore.heap.rc ∧
      st'.heap.freed = exampleStore.heap.freed :=
  have hl : ∀ x, (Result.ofK (some examplePayload)).res_ = some x →
      1 ≤ exampleStore.heap.rc x.addr := by
    intro x hx
    cases hx
    decide
  ⟨rfl, hl,
    (C10_copy_then_destroy exampleStore 0 (Result.ofK (some examplePayload)) rfl hl).imp
      fun _ hst => ⟨hst.1, hst.2.1, hst.2.2.1, hst.2.2.2.1⟩⟩

/-! ### Self-assignment -/

theorem set_getElem?_same {α : Type} (l : List α) (i : Nat) (a : α) (h : l[i]? = some a) :
    l.set i a = l := by
  induction l generalizing i with
  | nil => rfl
  | cons x xs ih =>
    cases i with
    | zero =>
      simp only [List.getElem?_cons_zero, Option.some.injEq] at h
      subst h
      rfl
    | succ n =>
      simp only [List.getElem?_cons_succ] at h
      simp [List.set_cons_succ, ih n h]

/-- C11: the self-assignment `v1 = v1` of a Value issues no `r1` and no `r0` (no event at
all), is performed, and leaves the Values, the count of every payload and the freed
payloads as they were; `v1` keeps its payload and its `type()`. -/
theorem C11_self_assignment (st : Store) (i : Nat) (v1 : Result)
    (hv : st.vals[i]? = some v1) :
    Result.assign (decide (i = i)) v1 v1 = (v1, []) ∧
    ∃ st', st.step (VOp.assign i i) = some st' ∧
      st'.vals = st.vals ∧ st'.heap.rc = st.heap.rc ∧ st'.heap.freed = st.heap.freed ∧
      (∀ v', st'.vals[i]? = some v' → v'.res_ = v1.res_ ∧ v'.type = v1.type) := by
  have hasg : Result.assign (decide (i = i)) v1 v1 = (v1, []) := by
    simp [Result.assign]
  refine ⟨hasg, { vals := st.vals, heap := { rc := st.heap.rc, freed := st.heap.freed } },
    ?_, rfl, rfl, rfl, ?_⟩
  · simp [Store.step, hv, Result.assign, Heap.run, set_getElem?_same st.vals i v1 hv]
  · intro v' hv'
    simp only [] at hv'
    rw [hv] at hv'
    cases hv'
    exact ⟨rfl, rfl⟩

/-- Witness of C11: the one Value of `exampleStore` is assigned to itself. -/
theorem C11_self_assignment_witness :
    exampleStore.vals[0]? = some (Result.ofK (some examplePayload)) ∧
    ∃ st', exampleStore.step (VOp.assign 0 0) = some st' ∧
      st'.vals = exampleStore.vals ∧ st'.heap.rc = exampleStore.heap.rc ∧
      st'.heap.freed = exampleStore.heap.freed :=
  ⟨rfl,
    (C11_self_assignment exampleStore 0 (Result.ofK (some examplePayload)) rfl).2.imp
      fun _ hst => ⟨hst.1, hst.2.1, hst.2.2.1, hst.2.2.2.1⟩⟩

/-! ### The printer -/

/-- The `switch` of the printer, read through the fields of the payload. -/
theorem render_def (lib : Lib) (x : K0) :
    render lib x =
      if x.t = -1 then some (showBool x.g)
      else if x.t = -4 then some (showG x.g)
      else if x.t = -5 then some (toString x.h)
      else if x.t = -6 ∨ x.t = -13 ∨ x.t = -17 ∨ x.t = -18 then some (toString x.i)
      else if x.t = -7 ∨ x.t = -12 ∨ x.t = -16 then some (toString x.j)
      else if x.t = -8 then some (lib.fmtE x.e)
      else if x.t = -9 ∨ x.t = -15 then some (lib.fmtF x.f)
      else if x.t = -10 then some (showG x.g)
      else if x.t = -11 then some x.s
      else if x.t = -19 then some (toString x.i)
      else if x.t = -14 then some (toString (lib.dj x.i))
      else if x.t = 0 then renderEach lib x.kK
      else if x.t = 1 then some (eachSp showBool x.kG)
      else if x.t = 4 then some (eachSp showG x.kG)
      else if x.t = 5 then some (eachSp toString x.kH)
      else if x.t = 6 ∨ x.t = 13 ∨ x.t = 17 ∨ x.t = 18 then some (eachSp toString x.kI)
      else if x.t = 7 ∨ x.t = 12 ∨ x.t = 16 then some (eachSp toString x.kJ)
      else if x.t = 8 then some (eachSp lib.fmtE x.kE)
      else if x.t = 9 ∨ x.t = 15 then some (eachSp lib.fmtF x.kF)
      else if x.t = 10 then some (eachSp String.singleton x.kC)
      else if x.t = 11 then some (eachSp id x.kS)
      else if x.t = 19 then some (eachSp toString x.kI)
      else if x.t = 14 then some (eachSp (fun d => toString (lib.dj d)) x.kI)
      else if x.t = 98 then renderTable lib x.k
      else if x.t = 99 then renderPair lib x.kK
      else some "" := by
  cases x
  simp only [render]

theorem foldl_append_init (l : List String) (init : String) :
    l.foldl (fun r s => r ++ s) init = init ++ l.foldl (fun r s => r ++ s) "" := by
  induction l generalizing init with
  | nil => simp
  | cons a l ih =>
    simp only [List.foldl_cons, String.empty_append]
    rw [ih (init ++ a), ih a, String.append_assoc]

theorem join_cons (a : String) (l : List String) :
    String.join (a :: l) = a ++ String.join l := by
  simp only [String.join, List.foldl_cons, String.empty_append]
  exact foldl_append_init l a

/-- The loop writes the concatenation, in order, of each element's text followed by one
space. -/
theorem eachSp_eq_join {α : Type} (elem : α → String) (xs : List α) :
    eachSp elem xs = String.join (xs.map (fun x => elem x ++ " ")) := by
  induction xs with
  | nil => rfl
  | cons x xs ih => simp only [eachSp, List.map_cons, join_cons, ih]

/-- C12: a boolean vector (tag 1) with elements `b_1..b_n` renders as the concatenation, in
order, of `true` (for a non-zero element) or `false` (for a zero one), each followed by one
space; `[true, false, true]` renders as `true false true ` and the empty vector as the
empty text. -/
theorem C12_boolean_vector (lib : Lib) (x : K0) (ht : x.t = 1) :
    render lib x
      = some (String.join (x.kG.map (fun b => (if b ≠ 0 then "true" else "false") ++ " "))) ∧
    (x.kG = [1, 0, 1] → render lib x = some "true false true ") ∧
    (x.kG = [] → render lib x = some "") := by
  have h : render lib x = some (eachSp showBool x.kG) := by
    rw [render_def]
    simp [ht]
  refine ⟨?_, fun hk => ?_, fun hk => ?_⟩
  · rw [h, eachSp_eq_join]
    rfl
  · rw [h, hk]
    rfl
  · rw [h, hk]
    rfl

/-- Witness of C12: the vector `101b`. -/
theorem C12_boolean_vector_witness :
    ({ addr := 1, t := 1, s := "", kG := [1, 0, 1], kK := [], k := none } : K0).t = 1 ∧
    ∀ lib, render lib { addr := 1, t := 1, s := "", kG := [1, 0, 1], kK := [], k := none }
      = some "true false true " :=
  ⟨rfl, fun lib =>
    (C12_boolean_vector lib { addr := 1, t := 1, s := "", kG := [1, 0, 1], kK := [], k := none }
      rfl).2.1 rfl⟩

theorem renderPair_two (lib : Lib) (a b : K0) (l : List K0) :
    renderPair lib (a :: b :: l) = andThen (render lib a) (render lib b) := rfl

theorem renderEach_nil (lib : Lib) : renderEach lib [] = some "" := rfl

theorem renderEach_cons (lib : Lib) (x : K0) (xs : List K0) :
    renderEach lib (x :: xs)
      = andThen (andThen (render lib x) (some " ")) (renderEach lib xs) := rfl

theorem renderTable_some (lib : Lib) (d : K0) :
    renderTable lib (some d) = renderPair lib d.kK := by
  cases d
  rfl

theorem render_mixed (lib : Lib) (x : K0) (ht : x.t = 0) :
    render lib x = renderEach lib x.kK := by
  rw [render_def]
  simp [ht]

theorem render_symbols (lib : Lib) (x : K0) (ht : x.t = 11) :
    render lib x = some (eachSp id x.kS) := by
  rw [render_def]
  simp [ht]

theorem render_ints (lib : Lib) (x : K0) (ht : x.t = 6) :
    render lib x = some (eachSp toString x.kI) := by
  rw [render_def]
  simp [ht]

theorem render_dict (lib : Lib) (x : K0) (ht : x.t = 99) :
    render lib x = renderPair lib x.kK := by
  rw [render_def]
  simp [ht]

theorem render_table (lib : Lib) (x : K0) (ht : x.t = 98) :
    render lib x = renderTable lib x.k := by
  rw [render_def]
  simp [ht]

/-- C13: a dictionary (tag 99) with the children `keys` and `values`, whatever their tags
(two tables included), renders as the text of `keys` directly followed by the text of
`values`, nothing between and nothing after; for the symbol vector `a b c` as keys and the
integer vector `1 2 3` as values the text is `a b c 1 2 3 `. -/
theorem C13_dictionary (lib : Lib) (x keys values : K0) (ht : x.t = 99)
    (hk : x.kK = [keys, values]) :
    render lib x = andThen (render lib keys) (render lib values) ∧
    (∀ a b, render lib keys = some a → render lib values = some b →
      render lib x = some (a ++ b)) ∧
    (keys.t = 11 → keys.kS = ["a", "b", "c"] → values.t = 6 → values.kI = [1, 2, 3] →
      render lib x = some "a b c 1 2 3 ") := by
  have h : render lib x = andThen (render lib keys) (render lib values) := by
    rw [render_dict lib x ht, hk, renderPair_two]
  refine ⟨h, fun a b ha hb => ?_, fun h1 h2 h3 h4 => ?_⟩
  · rw [h, ha, hb]
    rfl
  · rw [h, render_symbols lib keys h1, render_ints lib values h3, h2, h4]
    rfl

/-- Witness of C13: the dictionary of the symbols `a b c` and the integers `1 2 3`. -/
theorem C13_dictionary_witness :
    exampleDict.t = 99 ∧ exampleDict.kK = [exampleSyms, exampleInts] ∧
    ∀ lib, render lib exampleDict = some "a b c 1 2 3 " :=
  ⟨rfl, rfl, fun lib =>
    (C13_dictionary lib exampleDict exampleSyms exampleInts rfl rfl).2.2 rfl rfl rfl rfl⟩

/-- C14: a table (tag 98) that wraps the dictionary `d` with the children `names` and
`data` renders as the text of `names` directly followed by the text of `data`, which is
the text of `d` itself when `d` carries the dictionary tag; for the columns `a: 1 2 3` and
`b: 4 5 6` of integers the text is `a b ` followed by `1 2 3  4 5 6  `. -/
theorem C14_table (lib : Lib) (x d names data : K0) (ht : x.t = 98) (hd : x.k = some d)
    (hk : d.kK = [names, data]) :
    render lib x = andThen (render lib names) (render lib data) ∧
    (∀ a b, render lib names = some a → render lib data = some b →
      render lib x = some (a ++ b)) ∧
    (d.t = 99 → render lib x = render lib d) ∧
    (∀ c1 c2 : K0, names.t = 11 → names.kS = ["a", "b"] → data.t = 0 → data.kK = [c1, c2] →
      c1.t = 6 → c1.kI = [1, 2, 3] → c2.t = 6 → c2.kI = [4, 5, 6] →
      render lib x = some ("a b " ++ "1 2 3  4 5 6  ")) := by
  have h : render lib x = andThen (render lib names) (render lib data) := by
    rw [render_table lib x ht, hd, renderTable_some, hk, renderPair_two]
  refine ⟨h, fun a b ha hb => ?_, fun hdt => ?_, ?_⟩
  · rw [h, ha, hb]
    rfl
  · rw [h, render_dict lib d hdt, hk, renderPair_two]
  · intro c1 c2 h1 h2 h3 h4 h5 h6 h7 h8
    rw [h, render_symbols lib names h1, render_mixed lib data h3, h2, h4, renderEach_cons,
      renderEach_cons, renderEach_nil, render_ints lib c1 h5, render_ints lib c2 h7, h6, h8]
    rfl

/-- Witness of C14: the table with the integer columns `a: 1 2 3` and `b: 4 5 6`. -/
theorem C14_table_witness :
    exampleTable.t = 98 ∧ exampleTable.k = some exampleTableDict ∧
    exampleTableDict.kK = [exampleNames, exampleColumns] ∧
    ∀ lib, render lib exampleTable = some "a b 1 2 3  4 5 6  " :=
  ⟨rfl, rfl, rfl, fun lib =>
    (C14_table lib exampleTable exampleTableDict exampleNames exampleColumns rfl rfl
      rfl).2.2.2 exampleInts exampleInts2 rfl rfl rfl rfl rfl rfl rfl rfl⟩

/-- What holds of C15: short, int and long atoms (tags -5, -6, -7) render as the decimal
form of the stored number, and the vectors (tags 5, 6, 7) as each element's decimal form
followed by one space, in order; the int atom 11 renders as `11`. -/
theorem render_short_int_long (lib : Lib) (x : K0) :
    (x.t = -5 → render lib x = some (toString x.h)) ∧
    (x.t = -6 → render lib x = some (toString x.i)) ∧
    (x.t = -7 → render lib x = some (toString x.j)) ∧
    (x.t = 5 →
      render lib x = some (String.join (x.kH.map (fun v => toString v ++ " ")))) ∧
    (x.t = 6 →
      render lib x = some (String.join (x.kI.map (fun v => toString v ++ " ")))) ∧
    (x.t = 7 →
      render lib x = some (String.join (x.kJ.map (fun v => toString v ++ " ")))) ∧
    (x.t = -6 → x.i = 11 → render lib x = some "11") := by
  refine ⟨fun ht => ?_, fun ht => ?_, fun ht => ?_, fun ht => ?_, fun ht => ?_,
    fun ht => ?_, fun ht hi => ?_⟩
  · rw [render_def]
    simp [ht]
  · rw [render_def]
    simp [ht]
  · rw [render_def]
    simp [ht]
  · rw [← eachSp_eq_join, render_def]
    simp [ht]
  · rw [← eachSp_eq_join, render_def]
    simp [ht]
  · rw [← eachSp_eq_join, render_def]
    simp [ht]
  · have h : render lib x = some (toString x.i) := by
      rw [render_def]
      simp [ht]
    rw [h, hi]
    rfl

/-- C15 (what the code does): the byte atom `0x37` (tag -4) is written as the one
character `7`, the character with the code 55, and not as the decimal `55`; the byte vector
`0x3738` (tag 4) is written as `7 8 ` and not as `55 56 `. A byte atom and a char atom
(tag -10) that hold the same byte are written alike, through the same `os << res->g`. -/
theorem C15_byte_written_as_character (lib : Lib) :
    render lib exampleByte = some "7" ∧
    render lib exampleByte ≠ some "55" ∧
    render lib exampleBytes = some "7 8 " ∧
    render lib exampleBytes ≠ some "55 56 " ∧
    (∀ x y : K0, x.t = -4 → y.t = -10 → x.g = y.g → render lib x = render lib y) := by
  have h1 : render lib exampleByte = some "7" := rfl
  have h2 : render lib exampleBytes = some "7 8 " := rfl
  refine ⟨h1, ?_, h2, ?_, ?_⟩
  · rw [h1]
    decide
  · rw [h2]
    decide
  · intro x y hx hy hg
    rw [render_def lib x, render_def lib y]
    simp [hx, hy, hg]

/-- C16: the printer appends nothing, and does not fail, for the null Value, for a payload
tagged Error (-128), and for a payload whose tag has no `case` (so for the tags 2 and -2,
20 to 97, 100 and above, -20 and below), whatever the other fields of the payload. -/
theorem C16_nothing_rendered (lib : Lib) :
    (renderK lib none = some "" ∧ Result.render lib (Result.ofK none) = some "") ∧
    (∀ x : K0, x.t = -128 → render lib x = some "" ∧
      Result.render lib (Result.ofK (some x)) = some "") ∧
    (∀ x : K0, x.t ∉ handledTags → render lib x = some "" ∧
      Result.render lib (Result.ofK (some x)) = some "") ∧
    (∀ x : K0, (x.t = 2 ∨ x.t = -2 ∨ (20 ≤ x.t ∧ x.t ≤ 97) ∨ 100 ≤ x.t ∨ x.t ≤ -20) →
      render lib x = some "") := by
  have hgen : ∀ x : K0, x.t ∉ handledTags → render lib x = some "" := by
    intro x ht
    simp only [handledTags, List.mem_cons, List.mem_singleton, not_or, List.not_mem_nil,
      not_false_eq_true, and_true] at ht
    rw [render_def]
    simp [ht]
  refine ⟨⟨rfl, rfl⟩, fun x ht => ?_, fun x ht => ⟨hgen x ht, hgen x ht⟩, fun x ht => ?_⟩
  · have : x.t ∉ handledTags := by
      rw [ht]
      decide
    exact ⟨hgen x this, hgen x this⟩
  · apply hgen
    simp only [handledTags, List.mem_cons, List.mem_singleton, not_or, List.not_mem_nil,
      not_false_eq_true, and_true]
    omega

/-- Witness of C16: a payload tagged Error and a GUID atom, both with text and children. -/
theorem C16_nothing_rendered_witness :
    (-128 : Int) = -128 ∧ (-2 : Int) ∉ handledTags ∧
    ∀ lib,
      render lib { addr := 1, t := -128, s := "type", g := 7, kK := [exampleInts], k := none }
        = some "" ∧
      render lib { addr := 1, t := -2, s := "type", g := 7, kK := [exampleInts], k := none }
        = some "" :=
  ⟨rfl, by decide, fun lib =>
    ⟨((C16_nothing_rendered lib).2.1 _ rfl).1,
      ((C16_nothing_rendered lib).2.2.1 _ (by decide)).1⟩⟩

theorem andThen_assoc (a b c : Option String) :
    andThen (andThen a b) c = andThen a (andThen b c) := by
  cases a <;> cases b <;> cases c <;> simp [andThen, String.append_assoc]

theorem andThen_empty_left (a : Option String) : andThen (some "") a = a := by
  cases a <;> simp [andThen]

/-- The loop of the mixed list distributes over the concatenation of the children. -/
theorem renderEach_append (lib : Lib) (xs ys : List K0) :
    renderEach lib (xs ++ ys) = andThen (renderEach lib xs) (renderEach lib ys) := by
  induction xs with
  | nil => rw [List.nil_append, renderEach_nil, andThen_empty_left]
  | cons x xs ih =>
    rw [List.cons_append, renderEach_cons, renderEach_cons, ih]
    simp only [andThen_assoc]

/-- When each child has a text, the loop of the mixed list writes each text followed by
one space, in order. -/
theorem renderEach_forall₂ (lib : Lib) (xs : List K0) (ss : List String)
    (h : List.Forall₂ (fun c s => render lib c = some s) xs ss) :
    renderEach lib xs = some (String.join (ss.map (fun s => s ++ " "))) := by
  induction h with
  | nil => rfl
  | cons hx _ ih =>
    rw [renderEach_cons, hx, ih, List.map_cons, join_cons]
    rfl

/-- C17: a mixed list (tag 0) with the children `e_1..e_n`, of any tags and any depth,
renders as the concatenation in order of the text of each `e_i` followed by exactly one
space; rendering distributes over the concatenation of the children of two mixed lists;
every child is a strictly smaller payload than the list, so the recursion is well-founded
on the payload tree; and the list has a text as soon as each child has one. -/
theorem C17_mixed_list (lib : Lib) (x : K0) (ht : x.t = 0) :
    (∀ ss, List.Forall₂ (fun c s => render lib c = some s) x.kK ss →
      render lib x = some (String.join (ss.map (fun s => s ++ " ")))) ∧
    (∀ y z : K0, y.t = 0 → z.t = 0 → x.kK = y.kK ++ z.kK →
      render lib x = andThen (render lib y) (render lib z) ∧
      ∀ a b, render lib y = some a → render lib z = some b →
        render lib x = some (a ++ b)) ∧
    (∀ c ∈ x.kK, sizeOf c < sizeOf x) ∧
    ((∀ c ∈ x.kK, ∃ s, render lib c = some s) → ∃ s, render lib x = some s) := by
  have hx := render_mixed lib x ht
  refine ⟨fun ss hss => ?_, fun y z hy hz hk => ?_, fun c hc => ?_, fun hall => ?_⟩
  · rw [hx]
    exact renderEach_forall₂ lib x.kK ss hss
  · have h : render lib x = andThen (render lib y) (render lib z) := by
      rw [hx, hk, renderEach_append, render_mixed lib y hy, render_mixed lib z hz]
    refine ⟨h, fun a b ha hb => ?_⟩
    rw [h, ha, hb]
    rfl
  · have h1 := List.sizeOf_lt_of_mem hc
    have h2 : sizeOf x.kK < sizeOf x := by
      cases x
      simp only [K0.mk.sizeOf_spec]
      omega
    omega
  · rw [hx]
    have : ∀ l : List K0, (∀ c ∈ l, ∃ s, render lib c = some s) →
        ∃ s, renderEach lib l = some s := by
      intro l
      induction l with
      | nil => exact fun _ => ⟨"", rfl⟩
      | cons c l ih =>
        intro hl
        obtain ⟨s1, h1⟩ := hl c (List.mem_cons_self c l)
        obtain ⟨s2, h2⟩ := ih (fun c' hc' => hl c' (List.mem_cons_of_mem c hc'))
        exact ⟨s1 ++ " " ++ s2, by rw [renderEach_cons, h1, h2]; rfl⟩
    exact this x.kK hall

/-- Witness of C17: the mixed list of the two integer vectors `1 2 3` and `4 5 6`. -/
theorem C17_mixed_list_witness :
    exampleColumns.t = 0 ∧
    ∀ lib, render lib exampleColumns = some (String.join (["1 2 3 ", "4 5 6 "].map
      (fun s => s ++ " "))) :=
  ⟨rfl, fun lib => (C17_mixed_list lib exampleColumns rfl).1 ["1 2 3 ", "4 5 6 "]
    (List.Forall₂.cons rfl (List.Forall₂.cons rfl List.Forall₂.nil))⟩

/-! ### Requests on a Connected Connector -/

/-- C18: on a Connected Connector with a handle `h > 0` (an `int`, so at most `2^31 - 1`),
`sync` issues exactly one transport call, `k` on the handle `h` itself, which is strictly
positive, and `async` issues exactly one transport call, `k` on the handle `-h`, which is
strictly negative; the 32-bit negation does not overflow (it is the exact `-h`). -/
theorem C18_handle_sign (c : Connector) (msg : String) (reply : K)
    (hc : 0 < c.hdl_) (hr : c.hdl_ ≤ 2147483647) :
    ((c.sync msg reply).2.2.filter Event.isTransport = [Event.k c.hdl_ msg] ∧ 0 < c.hdl_) ∧
    ((c.async msg reply).2.filter Event.isTransport = [Event.k (-c.hdl_) msg] ∧
      -c.hdl_ < 0) ∧
    (wrapInt32 (-c.hdl_) = -c.hdl_ ∧ -2147483648 ≤ -c.hdl_ ∧ -c.hdl_ ≤ 2147483647) := by
  have hc2 : ¬ c.hdl_ ≤ 0 := not_le.mpr hc
  have hw : wrapInt32 (-c.hdl_) = -c.hdl_ := by
    unfold wrapInt32
    omega
  refine ⟨⟨?_, hc⟩, ⟨?_, by omega⟩, hw, by omega, by omega⟩
  · rcases reply with _ | x
    · simp [Connector.sync, hc2, Event.isTransport, List.filter_cons]
    · by_cases hx : -128 = x.t <;>
        simp [Connector.sync, hc2, hx, Event.isTransport, List.filter_cons]
  · rcases reply with _ | x <;>
      simp [Connector.async, hc2, hw, Event.isTransport, List.filter_cons]

/-- Witness of C18: a Connector holding the handle 3. -/
theorem C18_handle_sign_witness :
    (0 : Int) < ({ hdl_ := 3 } : Connector).hdl_ ∧
    ({ hdl_ := 3 } : Connector).hdl_ ≤ 2147483647 ∧
    (({ hdl_ := 3 } : Connector).async "a:2" none).2.filter Event.isTransport
      = [Event.k (-3) "a:2"] :=
  ⟨by decide, by decide,
    (C18_handle_sign { hdl_ := 3 } "a:2" none (by decide) (by decide)).2.1.1⟩

/-- C19: on a Connected Connector `sync` returns a Value `v`; `v.type()` is Error exactly
when `k` handed back no payload or a payload tagged Error; otherwise `v` holds exactly the
payload handed back, `v.type()` is that payload's tag, and no `r1` or `r0` is issued. -/
theorem C19_sync_value (c : Connector) (msg : String) (reply : K) (hc : 0 < c.hdl_) :
    ∃ v, (c.sync msg reply).1 = some v ∧
      (v.type = Ty.Error ↔ (reply = none ∨ ∃ x, reply = some x ∧ x.t = -128)) ∧
      (∀ x, reply = some x → x.t ≠ -128 →
        v.res_ = some x ∧ v.type = x.t ∧
        ∀ e ∈ (c.sync msg reply).2.2, e.isR0 = false ∧ e.isR1 = false) := by
  have hc2 : ¬ c.hdl_ ≤ 0 := not_le.mpr hc
  rcases reply with _ | x
  · refine ⟨Result.ofK none, by simp [Connector.sync, hc2], ?_, ?_⟩
    · simp [Result.type, Result.ofK]
    · intro x hx
      cases hx
  · by_cases hx : -128 = x.t
    · refine ⟨Result.ofK none, by simp [Connector.sync, hc2, hx], ?_, ?_⟩
      · simp [Result.type, Result.ofK, ← hx]
      · intro y hy hne
        cases hy
        exact absurd hx.symm hne
    · refine ⟨Result.ofK (some x), by simp [Connector.sync, hc2, hx], ?_, ?_⟩
      · have hx2 : ¬ x.t = -128 := fun e => hx e.symm
        simp [Result.type, Result.ofK, Ty.Error, hx2]
      · intro y hy _
        cases hy
        refine ⟨rfl, rfl, ?_⟩
        simp [Connector.sync, hc2, hx, Event.isR0, Event.isR1]

/-- Witness of C19: a Connector holding the handle 3 and the reply `examplePayload`. -/
theorem C19_sync_value_witness :
    (0 : Int) < ({ hdl_ := 3 } : Connector).hdl_ ∧
    ∃ v, (({ hdl_ := 3 } : Connector).sync "a" (some examplePayload)).1 = some v ∧
      (v.type = Ty.Error ↔
        ((some examplePayload : K) = none ∨
          ∃ x, (some examplePayload : K) = some x ∧ x.t = -128)) :=
  ⟨by decide,
    (C19_sync_value { hdl_ := 3 } "a" (some examplePayload) (by decide)).imp
      fun _ hv => ⟨hv.1, hv.2.1⟩⟩

/-- C20: `sync` and `async` leave the Connector as it was, whatever its state, the message
and the reply (a null reply and an Error-tagged reply included): the handle, the host, the
port and the credential are those before the call, so a Connected Connector stays Connected
with the same handle. -/
theorem C20_sync_async_frame (c : Connector) (msg : String) (reply : K) :
    ((c.sync msg reply).2.1 = c ∧ (c.async msg reply).1 = c) ∧
    ((c.sync msg reply).2.1.hdl_ = c.hdl_ ∧ (c.sync msg reply).2.1.host_ = c.host_ ∧
      (c.sync msg reply).2.1.port_ = c.port_ ∧ (c.sync msg reply).2.1.usr_pwd_ = c.usr_pwd_) ∧
    ((c.async msg reply).1.hdl_ = c.hdl_ ∧ (c.async msg reply).1.host_ = c.host_ ∧
      (c.async msg reply).1.port_ = c.port_ ∧ (c.async msg reply).1.usr_pwd_ = c.usr_pwd_) ∧
    (c.Connected → (c.sync msg reply).2.1.Connected ∧ (c.async msg reply).1.Connected) := by
  have hs : (c.sync msg reply).2.1 = c := by
    unfold Connector.sync
    split
    · rfl
    · rcases reply with _ | x
      · rfl
      · simp only []
        split <;> rfl
  have ha : (c.async msg reply).1 = c := by
    unfold Connector.async
    split
    · rfl
    · rcases reply with _ | x <;> rfl
  refine ⟨⟨hs, ha⟩, ?_, ?_, ?_⟩
  · rw [hs]
    exact ⟨rfl, rfl, rfl, rfl⟩
  · rw [ha]
    exact ⟨rfl, rfl, rfl, rfl⟩
  · intro hcon
    rw [hs, ha]
    exact ⟨hcon, hcon⟩

end kdb
